import Mathlib

/-!
# Verification of the "coming soon" release pipeline

Shallow embedding of the scheduled content-release subsystem of the
dramashort backend (`releaseComingSoonEpisodes`, `releaseComingSoonSeries`
and the cron scheduler in `utils` cron file, together with the Mongoose
schemas `ComingSoonSeries`, `ComingSoonEpisode`, `Series`, `Episode`,
`SeriesTransferLog`).

The document store is modelled as five in-memory lists plus a fresh-id
counter; timestamps are naturals; the thrown/caught JavaScript errors are
modelled as explicit `JsError` values injected by a `Faults` oracle at the
two `save()` call sites (the only sites where the code's ENOSPC handling is
observable) and at the two initial `find()` calls (the only fallible calls
guarded solely by the outer tick-level `try`).  All definitions follow the
source control flow line by line; console logging is not modelled (it has
no effect on the store), and the purely informational
`countDocuments`/`findOne` block that runs when no series is due is not
modelled for the same reason.
-/

namespace DramaShort

/-- The `status` enum shared by `comingSoonSeriesSchema` and
`comingSoonEpisodeSchema`: `enum: ['pending', 'released']`. -/
inductive Status where
  | pending
  | released
deriving DecidableEq, Repr

/-- A document of the `ComingSoonSeries` collection (`comingSoonSeriesSchema`).
Fields that the schema defaults but the code reads through `|| 0` are kept
optional to mirror the JavaScript access. -/
structure ComingSoonSeries where
  id : Nat
  title : String
  description : String
  totalEpisode : Nat
  freeEpisode : Nat
  free : Bool
  membersOnly : Bool
  type : String
  active : Bool
  category : List String
  tags : List String
  image : String
  banner : String
  rating : Option Nat
  viewCount : Nat
  scheduledReleaseDate : Nat
  status : Status
deriving DecidableEq, Repr

/-- A document of the `ComingSoonEpisode` collection (`comingSoonEpisodeSchema`).
`seriesId` points at a live `Series`, `comingSoonSeriesId` at a
`ComingSoonSeries`; both are optional in the schema. -/
structure ComingSoonEpisode where
  id : Nat
  seriesId : Option Nat
  comingSoonSeriesId : Option Nat
  episode : Nat
  title : Option String
  coin : Option Nat
  views : Option Nat
  coinEarned : Option Nat
  videoUrl : String
  videoThumbnail : Option String
  scheduledReleaseDate : Nat
  status : Status
deriving DecidableEq, Repr

/-- A document of the live `Series` collection (`episodeSchema`'s parent). -/
structure Series where
  id : Nat
  title : String
  description : String
  totalEpisode : Nat
  freeEpisode : Nat
  free : Bool
  membersOnly : Bool
  type : String
  active : Bool
  category : List String
  tags : List String
  image : String
  banner : String
  rating : Nat
  viewCount : Nat
deriving DecidableEq, Repr

/-- A document of the live `Episode` collection (`episodeSchema`). -/
structure Episode where
  id : Nat
  seriesId : Nat
  episode : Nat
  title : String
  coin : Nat
  views : Nat
  coinEarned : Nat
  videoUrl : String
  videoThumbnail : Option String
deriving DecidableEq, Repr

/-- A document of the `SeriesTransferLog` collection
(`seriesTransferLogSchema`). -/
structure SeriesTransferLog where
  comingSoonSeriesId : Nat
  seriesId : Nat
  title : String
  scheduledReleaseDate : Nat
  transferredAt : Nat
deriving DecidableEq, Repr

/-- The document store: the five collections touched by the cron file plus
a counter supplying fresh `_id`s for inserted documents. -/
structure DB where
  comingSoonSeries : List ComingSoonSeries
  comingSoonEpisodes : List ComingSoonEpisode
  series : List Series
  episodes : List Episode
  transferLogs : List SeriesTransferLog
  nextId : Nat
deriving DecidableEq, Repr

/-- A JavaScript error value as the cron file inspects it:
`error.code` (compared against `'ENOSPC'`) and `error.message`. -/
structure JsError where
  code : String
  message : String
deriving DecidableEq, Repr

/-- Fault-injection oracle for the fallible store operations.
`seriesFind`/`episodeFind` make the initial `ComingSoonSeries.find` /
`ComingSoonEpisode.find` throw; `seriesSave i` makes `newSeries.save()`
throw while processing the coming-soon series with id `i`; `episodeSave i`
makes `newEpisode.save()` throw while releasing the coming-soon episode
with id `i` (in either promoter). -/
structure Faults where
  seriesFind : Option JsError
  episodeFind : Option JsError
  seriesSave : Nat → Option JsError
  episodeSave : Nat → Option JsError

/-- The fault-free oracle: every store operation succeeds. -/
def noFaults : Faults :=
  { seriesFind := none, episodeFind := none,
    seriesSave := fun _ => none, episodeSave := fun _ => none }

namespace DB

/-- Query `ComingSoonEpisode.find({status:'pending', scheduledReleaseDate:{$lte:now}})`. -/
def dueEpisodes (db : DB) (now : Nat) : List ComingSoonEpisode :=
  db.comingSoonEpisodes.filter fun e =>
    decide (e.status = Status.pending ∧ e.scheduledReleaseDate ≤ now)

/-- Query `ComingSoonSeries.find({status:'pending', scheduledReleaseDate:{$lte:now}})`. -/
def dueSeries (db : DB) (now : Nat) : List ComingSoonSeries :=
  db.comingSoonSeries.filter fun s =>
    decide (s.status = Status.pending ∧ s.scheduledReleaseDate ≤ now)

/-- Query `SeriesTransferLog.findOne({comingSoonSeriesId: cid})`. -/
def findTransferLog (db : DB) (cid : Nat) : Option SeriesTransferLog :=
  db.transferLogs.find? fun t => decide (t.comingSoonSeriesId = cid)

/-- Query `Episode.findOne({seriesId: sid, episode: ep})`. -/
def findEpisode (db : DB) (sid ep : Nat) : Option Episode :=
  db.episodes.find? fun x => decide (x.seriesId = sid ∧ x.episode = ep)

/-- Update `ComingSoonEpisode.findByIdAndUpdate(i, {seriesId: sid})`. -/
def setCSEpisodeSeriesId (db : DB) (i sid : Nat) : DB :=
  { db with comingSoonEpisodes := db.comingSoonEpisodes.map fun e =>
      if e.id = i then { e with seriesId := some sid } else e }

/-- Update `ComingSoonEpisode.findByIdAndUpdate(i, {status:'released'})`. -/
def markCSEpisodeReleased (db : DB) (i : Nat) : DB :=
  { db with comingSoonEpisodes := db.comingSoonEpisodes.map fun e =>
      if e.id = i then { e with status := Status.released } else e }

/-- Deletion `ComingSoonEpisode.findByIdAndDelete(i)`. -/
def deleteCSEpisode (db : DB) (i : Nat) : DB :=
  { db with comingSoonEpisodes := db.comingSoonEpisodes.filter fun e =>
      decide (¬ e.id = i) }

/-- Update `ComingSoonSeries.findByIdAndUpdate(i, {status:'released'})`. -/
def markCSSeriesReleased (db : DB) (i : Nat) : DB :=
  { db with comingSoonSeries := db.comingSoonSeries.map fun s =>
      if s.id = i then { s with status := Status.released } else s }

/-- Deletion `ComingSoonSeries.findByIdAndDelete(i)`. -/
def deleteCSSeries (db : DB) (i : Nat) : DB :=
  { db with comingSoonSeries := db.comingSoonSeries.filter fun s =>
      decide (¬ s.id = i) }

/-- Update `ComingSoonEpisode.updateMany({comingSoonSeriesId: cid}, {$set:{seriesId: sid}})` —
the re-linking pass right after a series is materialized. -/
def relinkEpisodes (db : DB) (cid sid : Nat) : DB :=
  { db with comingSoonEpisodes := db.comingSoonEpisodes.map fun e =>
      if e.comingSoonSeriesId = some cid then { e with seriesId := some sid } else e }

/-- Insertion `SeriesTransferLog.create({...})`. -/
def appendTransferLog (db : DB) (t : SeriesTransferLog) : DB :=
  { db with transferLogs := db.transferLogs ++ [t] }

end DB

/-- The live `Series` document built by `new Series({...})` from a coming
soon series: every field copied, `rating` read through `|| 0`,
`viewCount` initialized to 0 and the scheduling fields dropped. -/
def liveSeriesOf (cs : ComingSoonSeries) (nid : Nat) : Series :=
  { id := nid, title := cs.title, description := cs.description,
    totalEpisode := cs.totalEpisode, freeEpisode := cs.freeEpisode,
    free := cs.free, membersOnly := cs.membersOnly, type := cs.type,
    active := cs.active, category := cs.category, tags := cs.tags,
    image := cs.image, banner := cs.banner, rating := cs.rating.getD 0,
    viewCount := 0 }

/-- The live `Episode` document built by `new Episode({...})` from a coming
soon episode under series `sid`: optional display fields read through
`|| ''` / `|| 0`. -/
def liveEpisodeOf (e : ComingSoonEpisode) (sid nid : Nat) : Episode :=
  { id := nid, seriesId := sid, episode := e.episode,
    title := e.title.getD "", coin := e.coin.getD 0,
    views := e.views.getD 0, coinEarned := e.coinEarned.getD 0,
    videoUrl := e.videoUrl, videoThumbnail := e.videoThumbnail }

/-- The `SeriesTransferLog` document created when `cs` is materialized as
live series `nid` at time `now`. -/
def transferLogOf (cs : ComingSoonSeries) (nid now : Nat) : SeriesTransferLog :=
  { comingSoonSeriesId := cs.id, seriesId := nid, title := cs.title,
    scheduledReleaseDate := cs.scheduledReleaseDate, transferredAt := now }

/-- Call `newSeries.save()`: may throw per the fault oracle; otherwise inserts
the document with a fresh id and returns that id. -/
def DB.saveSeries (db : DB) (f : Faults) (csId : Nat) (cs : ComingSoonSeries) :
    Except JsError (DB × Nat) :=
  match f.seriesSave csId with
  | some err => .error err
  | none =>
      let db1 : DB :=
        { db with
          series := db.series ++ [liveSeriesOf cs db.nextId]
          nextId := db.nextId + 1 }
      .ok (db1, db.nextId)

/-- Call `newEpisode.save()`: may throw per the fault oracle; otherwise inserts
the document with a fresh id and returns that id. -/
def DB.saveEpisode (db : DB) (f : Faults) (e : ComingSoonEpisode) (sid : Nat) :
    Except JsError (DB × Nat) :=
  match f.episodeSave e.id with
  | some err => .error err
  | none =>
      let db1 : DB :=
        { db with
          episodes := db.episodes ++ [liveEpisodeOf e sid db.nextId]
          nextId := db.nextId + 1 }
      .ok (db1, db.nextId)

/-- Lines 66–108 of the cron file: release one coming-soon episode whose
series id has been determined to be `sid`.  Returns the store, an optional
`released` entry `(newEpisodeId, seriesId, episode)` and the exception
reaching the per-item `catch`, if any. -/
def promoteEpisodeWith (f : Faults) (db : DB) (e : ComingSoonEpisode) (sid : Nat) :
    DB × Option (Nat × Nat × Nat) × Option JsError :=
  match db.findEpisode sid e.episode with
  | some _ =>
      -- episode already exists: mark released, delete, no error
      (((db.markCSEpisodeReleased e.id).deleteCSEpisode e.id), none, none)
  | none =>
      match db.saveEpisode f e sid with
      | .error err => (db, none, some err)
      | .ok (db1, nid) =>
          (((db1.markCSEpisodeReleased e.id).deleteCSEpisode e.id),
            some (nid, sid, e.episode), none)

/-- Lines 34–108 of the cron file: the body of the per-episode `try` in
`releaseComingSoonEpisodes`, including seriesId resolution through the
transfer log.  The third component is the exception reaching the per-item
`catch`, if any. -/
def processDueEpisode (f : Faults) (db : DB) (e : ComingSoonEpisode) :
    DB × Option (Nat × Nat × Nat) × Option JsError :=
  match e.seriesId with
  | some sid => promoteEpisodeWith f db e sid
  | none =>
      match e.comingSoonSeriesId with
      | some cid =>
          match db.findTransferLog cid with
          | some t =>
              -- series already released: persist the resolved id, then promote
              promoteEpisodeWith f (db.setCSEpisodeSeriesId e.id t.seriesId) e t.seriesId
          | none =>
              -- series not released yet: skip silently, retried next tick
              (db, none, none)
      | none =>
          -- no linkage at all: warn and skip
          (db, none, none)

/-- Accumulated run state of `releaseComingSoonEpisodes`: the store, the
`released` and `errors` arrays and whether the ENOSPC `break` fired. -/
structure EpisodeRun where
  db : DB
  released : List (Nat × Nat × Nat)
  errors : List (Nat × String)
  aborted : Bool
deriving DecidableEq, Repr

/-- The `for` loop of `releaseComingSoonEpisodes` over the due snapshot,
with the per-item `catch`: `ENOSPC` breaks out of the loop, any other
error is pushed onto `errors` and the loop continues. -/
def episodeLoop (f : Faults) : EpisodeRun → List ComingSoonEpisode → EpisodeRun
  | r, [] => r
  | r, e :: rest =>
      if r.aborted then r
      else
        match processDueEpisode f r.db e with
        | (db1, _rel, some err) =>
            if err.code = "ENOSPC" then
              episodeLoop f { r with db := db1, aborted := true } rest
            else
              episodeLoop f
                { r with db := db1, errors := r.errors ++ [(e.id, err.message)] } rest
        | (db1, some entry, none) =>
            episodeLoop f { r with db := db1, released := r.released ++ [entry] } rest
        | (db1, none, none) =>
            episodeLoop f { r with db := db1 } rest

/-- The body of `releaseComingSoonEpisodes` inside its outer `try`:
a thrown error escaping the per-item handlers would surface here as
`.error`. -/
def releaseComingSoonEpisodesTry (f : Faults) (now : Nat) (db : DB) :
    Except JsError EpisodeRun :=
  match f.episodeFind with
  | some err => .error err
  | none => .ok (episodeLoop f ⟨db, [], [], false⟩ (db.dueEpisodes now))

/-- Function `releaseComingSoonEpisodes`: the outer `catch` logs and returns,
leaving the store as it was at the point of the throw (an initial-`find`
failure leaves it untouched). -/
def releaseComingSoonEpisodes (f : Faults) (now : Nat) (db : DB) : EpisodeRun :=
  match releaseComingSoonEpisodesTry f now db with
  | .ok r => r
  | .error _ => ⟨db, [], [], false⟩

/-- Lines 240–281 of the cron file: the per-episode body (with its own
catch-all handler that only logs) of the release-with-parent pass that
runs immediately after a series is materialized as live series `nid`. -/
def seriesInnerEpisode (f : Faults) (db : DB) (nid : Nat) (e : ComingSoonEpisode) : DB :=
  match db.findEpisode nid e.episode with
  | some _ =>
      (db.markCSEpisodeReleased e.id).deleteCSEpisode e.id
  | none =>
      match db.saveEpisode f e nid with
      | .error _ => db   -- caught by the inner per-episode handler: log only
      | .ok (db1, _) => (db1.markCSEpisodeReleased e.id).deleteCSEpisode e.id

/-- Lines 178–283 of the cron file: the body of the per-series `try` in
`releaseComingSoonSeries`.  Returns the store, an optional `released`
entry `(newSeriesId, title)` and the exception reaching the per-series
`catch`, if any. -/
def processDueSeries (f : Faults) (now : Nat) (db : DB) (cs : ComingSoonSeries) :
    DB × Option (Nat × String) × Option JsError :=
  match db.saveSeries f cs.id cs with
  | .error err => (db, none, some err)
  | .ok (db1, nid) =>
      let db2 := db1.relinkEpisodes cs.id nid
      let db3 := db2.appendTransferLog (transferLogOf cs nid now)
      let db4 := (db3.markCSSeriesReleased cs.id).deleteCSSeries cs.id
      -- release ALL pending episodes of this series regardless of their
      -- own scheduledReleaseDate
      let inner := db4.comingSoonEpisodes.filter fun e =>
        decide ((e.seriesId = some nid ∨ e.comingSoonSeriesId = some cs.id) ∧
          e.status = Status.pending)
      let db5 := inner.foldl (fun d e => seriesInnerEpisode f d nid e) db4
      (db5, some (nid, cs.title), none)

/-- Accumulated run state of `releaseComingSoonSeries`. -/
structure SeriesRun where
  db : DB
  released : List (Nat × String)
  errors : List (Nat × String)
  aborted : Bool
deriving DecidableEq, Repr

/-- The `for` loop of `releaseComingSoonSeries` over the due snapshot,
with the per-series `catch`: `ENOSPC` breaks out of the loop, any other
error is pushed onto `errors` and the loop continues. -/
def seriesLoop (f : Faults) (now : Nat) : SeriesRun → List ComingSoonSeries → SeriesRun
  | r, [] => r
  | r, cs :: rest =>
      if r.aborted then r
      else
        match processDueSeries f now r.db cs with
        | (db1, _rel, some err) =>
            if err.code = "ENOSPC" then
              seriesLoop f now { r with db := db1, aborted := true } rest
            else
              seriesLoop f now
                { r with db := db1, errors := r.errors ++ [(cs.id, err.message)] } rest
        | (db1, some entry, none) =>
            seriesLoop f now { r with db := db1, released := r.released ++ [entry] } rest
        | (db1, none, none) =>
            seriesLoop f now { r with db := db1 } rest

/-- The body of `releaseComingSoonSeries` inside its outer `try`. -/
def releaseComingSoonSeriesTry (f : Faults) (now : Nat) (db : DB) :
    Except JsError SeriesRun :=
  match f.seriesFind with
  | some err => .error err
  | none => .ok (seriesLoop f now ⟨db, [], [], false⟩ (db.dueSeries now))

/-- Function `releaseComingSoonSeries`: the outer `catch` logs and returns. -/
def releaseComingSoonSeries (f : Faults) (now : Nat) (db : DB) : SeriesRun :=
  match releaseComingSoonSeriesTry f now db with
  | .ok r => r
  | .error _ => ⟨db, [], [], false⟩

/-- Freshness of the id counter: every id of a live document, and every
live-series reference stored anywhere, is strictly below `nextId`.  This is
the invariant Mongo's ObjectId generation provides and every store
operation of the model preserves. -/
def DB.fresh (db : DB) : Prop :=
  (∀ s ∈ db.series, s.id < db.nextId) ∧
  (∀ p ∈ db.episodes, p.id < db.nextId ∧ p.seriesId < db.nextId) ∧
  (∀ t ∈ db.transferLogs, t.seriesId < db.nextId) ∧
  (∀ e ∈ db.comingSoonEpisodes, ∀ sid, e.seriesId = some sid → sid < db.nextId)

/-- Store well-formedness: fresh id counter plus Mongo's per-collection
`_id` uniqueness for the two pending collections the promoters mutate. -/
def DB.wf (db : DB) : Prop :=
  db.fresh ∧
  (db.comingSoonSeries.map (·.id)).Nodup ∧
  (db.comingSoonEpisodes.map (·.id)).Nodup

/-- Whether a due coming-soon episode can determine its live series id this
tick, looking at a fixed transfer-log list: either `seriesId` is already
set, or it is resolvable through `comingSoonSeriesId`.  Episodes for which
this is `false` take one of the two silent `continue` paths. -/
def resolvableB (logs : List SeriesTransferLog) (e : ComingSoonEpisode) : Bool :=
  match e.seriesId with
  | some _ => true
  | none =>
      match e.comingSoonSeriesId with
      | some cid => (logs.find? fun t => decide (t.comingSoonSeriesId = cid)).isSome
      | none => false

/-- The due set of the release-with-parent pass inside `processDueSeries`
(line 229 of the cron file): pending episodes tied to the just-released
series `cs` — by the freshly relinked `seriesId` or by
`comingSoonSeriesId` — regardless of their own `scheduledReleaseDate`,
as read from the store right after the relink of `cs`'s episodes to the
new live id `nid`. -/
def seriesInnerQuery (db : DB) (cs : ComingSoonSeries) (nid : Nat) :
    List ComingSoonEpisode :=
  (db.relinkEpisodes cs.id nid).comingSoonEpisodes.filter fun e =>
    decide ((e.seriesId = some nid ∨ e.comingSoonSeriesId = some cs.id) ∧
      e.status = Status.pending)

/-! ### Concrete sample stores (used to exercise the definitions) -/

/-- A minimal coming-soon series document. -/
def sampleSeries (i sched : Nat) (st : Status) : ComingSoonSeries :=
  { id := i, title := "s", description := "d", totalEpisode := 1,
    freeEpisode := 0, free := false, membersOnly := false, type := "Free",
    active := true, category := ["c"], tags := [], image := "i", banner := "b",
    rating := none, viewCount := 0, scheduledReleaseDate := sched, status := st }

/-- A minimal coming-soon episode document. -/
def sampleEpisode (i : Nat) (sid csid : Option Nat) (ep sched : Nat)
    (st : Status) : ComingSoonEpisode :=
  { id := i, seriesId := sid, comingSoonSeriesId := csid, episode := ep,
    title := none, coin := none, views := none, coinEarned := none,
    videoUrl := "v", videoThumbnail := none, scheduledReleaseDate := sched,
    status := st }

/-- One due pending series (id 1) with one linked pending episode (id 2)
scheduled for the future — the spec's release-with-parent scenario. -/
def dbScenario1 : DB :=
  ⟨[sampleSeries 1 50 Status.pending],
    [sampleEpisode 2 none (some 1) 1 500 Status.pending], [], [], [], 10⟩

/-- Five due pending series (ids 1–5) and nothing else — the spec's
storage-exhaustion scenario. -/
def dbFiveSeries : DB :=
  ⟨[sampleSeries 1 10 Status.pending, sampleSeries 2 20 Status.pending,
    sampleSeries 3 30 Status.pending, sampleSeries 4 40 Status.pending,
    sampleSeries 5 50 Status.pending], [], [], [], [], 10⟩

/-- A fault oracle whose only failure is an out-of-space error thrown by
`newSeries.save()` for the pending series with id 2. -/
def faultsEnospcOn2 : Faults :=
  { seriesFind := none, episodeFind := none,
    seriesSave := fun i => if i = 2 then some ⟨"ENOSPC", "no space left on device"⟩ else none,
    episodeSave := fun _ => none }

/-- Same shape with a non-ENOSPC error class on the series with id 2. -/
def faultsValidationOn2 : Faults :=
  { seriesFind := none, episodeFind := none,
    seriesSave := fun i => if i = 2 then some ⟨"EVAL", "validation failed"⟩ else none,
    episodeSave := fun _ => none }

/-- A due unlinked pending episode (id 4) whose parent pending series (id 1)
has already been promoted to live series 7, per the transfer log. -/
def dbResolvable : DB :=
  ⟨[], [sampleEpisode 4 none (some 1) 2 60 Status.pending], [], [],
    [⟨1, 7, "s", 50, 90⟩], 10⟩

/-- A due unlinked pending episode (id 4) whose parent pending series (id 3)
has not been promoted: no transfer-log entry matches. -/
def dbUnresolvable : DB :=
  ⟨[], [sampleEpisode 4 none (some 3) 2 60 Status.pending], [], [],
    [⟨1, 7, "s", 50, 90⟩], 10⟩

/-- A due pending episode (id 4) for live series 7, episode number 1, where
a live episode with the same `(seriesId, episode)` key already exists. -/
def dbDuplicate : DB :=
  ⟨[], [sampleEpisode 4 (some 7) none 1 60 Status.pending], [],
    [⟨8, 7, 1, "", 0, 0, 0, "v0", none⟩], [], 10⟩

/-- A pending-series record stuck at `status = released` (crashed between
the mark and the delete), due in the past. -/
def dbStuckReleased : DB :=
  ⟨[sampleSeries 1 50 Status.released], [], [], [], [], 10⟩

/-- One due pending series (id 1) whose linked episode (id 2) hits an
out-of-space error at its own `save()` inside the release-with-parent
pass, plus a second linked episode (id 3). -/
def dbInnerFault : DB :=
  ⟨[sampleSeries 1 50 Status.pending],
    [sampleEpisode 2 none (some 1) 1 60 Status.pending,
     sampleEpisode 3 none (some 1) 2 60 Status.pending], [], [], [], 10⟩

/-- A fault oracle whose only failure is an out-of-space error thrown by
`newEpisode.save()` for the pending episode with id 2. -/
def faultsEpisodeEnospcOn2 : Faults :=
  { seriesFind := none, episodeFind := none,
    seriesSave := fun _ => none,
    episodeSave := fun i => if i = 2 then some ⟨"ENOSPC", "no space left on device"⟩ else none }

/-! ## Generic list lemmas -/

/-- Updating the entries holding key `i` (with a key-preserving update) and
then deleting every entry holding key `i` is the same as deleting alone. -/
theorem filter_erase_update {α : Type} (k : α → Nat) (i : Nat) (g : α → α)
    (hg : ∀ a, k (g a) = k a) (l : List α) :
    ((l.map fun a => if k a = i then g a else a).filter fun a => decide (¬ k a = i)) =
      l.filter fun a => decide (¬ k a = i) := by
  induction l with
  | nil => rfl
  | cons a l ih =>
      by_cases h : k a = i
      · have h1 : decide (¬ k (g a) = i) = false := by simp [hg, h]
        have h2 : decide (¬ k a = i) = false := by simp [h]
        simp only [List.map_cons, if_pos h, List.filter_cons, h1, h2,
          Bool.false_eq_true, if_false, ih]
      · have h2 : decide (¬ k a = i) = true := by simp [h]
        simp only [List.map_cons, if_neg h, List.filter_cons, h2, if_true, ih]

/-! ## Component lemmas for the store operations -/

namespace DB

@[simp] theorem setCSEpisodeSeriesId_comingSoonSeries (db : DB) (i sid : Nat) :
    (db.setCSEpisodeSeriesId i sid).comingSoonSeries = db.comingSoonSeries := rfl
@[simp] theorem setCSEpisodeSeriesId_series (db : DB) (i sid : Nat) :
    (db.setCSEpisodeSeriesId i sid).series = db.series := rfl
@[simp] theorem setCSEpisodeSeriesId_episodes (db : DB) (i sid : Nat) :
    (db.setCSEpisodeSeriesId i sid).episodes = db.episodes := rfl
@[simp] theorem setCSEpisodeSeriesId_transferLogs (db : DB) (i sid : Nat) :
    (db.setCSEpisodeSeriesId i sid).transferLogs = db.transferLogs := rfl
@[simp] theorem setCSEpisodeSeriesId_nextId (db : DB) (i sid : Nat) :
    (db.setCSEpisodeSeriesId i sid).nextId = db.nextId := rfl

@[simp] theorem markCSEpisodeReleased_comingSoonSeries (db : DB) (i : Nat) :
    (db.markCSEpisodeReleased i).comingSoonSeries = db.comingSoonSeries := rfl
@[simp] theorem markCSEpisodeReleased_series (db : DB) (i : Nat) :
    (db.markCSEpisodeReleased i).series = db.series := rfl
@[simp] theorem markCSEpisodeReleased_episodes (db : DB) (i : Nat) :
    (db.markCSEpisodeReleased i).episodes = db.episodes := rfl
@[simp] theorem markCSEpisodeReleased_transferLogs (db : DB) (i : Nat) :
    (db.markCSEpisodeReleased i).transferLogs = db.transferLogs := rfl
@[simp] theorem markCSEpisodeReleased_nextId (db : DB) (i : Nat) :
    (db.markCSEpisodeReleased i).nextId = db.nextId := rfl

@[simp] theorem deleteCSEpisode_comingSoonSeries (db : DB) (i : Nat) :
    (db.deleteCSEpisode i).comingSoonSeries = db.comingSoonSeries := rfl
@[simp] theorem deleteCSEpisode_series (db : DB) (i : Nat) :
    (db.deleteCSEpisode i).series = db.series := rfl
@[simp] theorem deleteCSEpisode_episodes (db : DB) (i : Nat) :
    (db.deleteCSEpisode i).episodes = db.episodes := rfl
@[simp] theorem deleteCSEpisode_transferLogs (db : DB) (i : Nat) :
    (db.deleteCSEpisode i).transferLogs = db.transferLogs := rfl
@[simp] theorem deleteCSEpisode_nextId (db : DB) (i : Nat) :
    (db.deleteCSEpisode i).nextId = db.nextId := rfl

@[simp] theorem markCSSeriesReleased_comingSoonEpisodes (db : DB) (i : Nat) :
    (db.markCSSeriesReleased i).comingSoonEpisodes = db.comingSoonEpisodes := rfl
@[simp] theorem markCSSeriesReleased_series (db : DB) (i : Nat) :
    (db.markCSSeriesReleased i).series = db.series := rfl
@[simp] theorem markCSSeriesReleased_episodes (db : DB) (i : Nat) :
    (db.markCSSeriesReleased i).episodes = db.episodes := rfl
@[simp] theorem markCSSeriesReleased_transferLogs (db : DB) (i : Nat) :
    (db.markCSSeriesReleased i).transferLogs = db.transferLogs := rfl
@[simp] theorem markCSSeriesReleased_nextId (db : DB) (i : Nat) :
    (db.markCSSeriesReleased i).nextId = db.nextId := rfl

@[simp] theorem deleteCSSeries_comingSoonEpisodes (db : DB) (i : Nat) :
    (db.deleteCSSeries i).comingSoonEpisodes = db.comingSoonEpisodes := rfl
@[simp] theorem deleteCSSeries_series (db : DB) (i : Nat) :
    (db.deleteCSSeries i).series = db.series := rfl
@[simp] theorem deleteCSSeries_episodes (db : DB) (i : Nat) :
    (db.deleteCSSeries i).episodes = db.episodes := rfl
@[simp] theorem deleteCSSeries_transferLogs (db : DB) (i : Nat) :
    (db.deleteCSSeries i).transferLogs = db.transferLogs := rfl
@[simp] theorem deleteCSSeries_nextId (db : DB) (i : Nat) :
    (db.deleteCSSeries i).nextId = db.nextId := rfl

@[simp] theorem relinkEpisodes_comingSoonSeries (db : DB) (cid sid : Nat) :
    (db.relinkEpisodes cid sid).comingSoonSeries = db.comingSoonSeries := rfl
@[simp] theorem relinkEpisodes_series (db : DB) (cid sid : Nat) :
    (db.relinkEpisodes cid sid).series = db.series := rfl
@[simp] theorem relinkEpisodes_episodes (db : DB) (cid sid : Nat) :
    (db.relinkEpisodes cid sid).episodes = db.episodes := rfl
@[simp] theorem relinkEpisodes_transferLogs (db : DB) (cid sid : Nat) :
    (db.relinkEpisodes cid sid).transferLogs = db.transferLogs := rfl
@[simp] theorem relinkEpisodes_nextId (db : DB) (cid sid : Nat) :
    (db.relinkEpisodes cid sid).nextId = db.nextId := rfl

@[simp] theorem appendTransferLog_comingSoonSeries (db : DB) (t : SeriesTransferLog) :
    (db.appendTransferLog t).comingSoonSeries = db.comingSoonSeries := rfl
@[simp] theorem appendTransferLog_comingSoonEpisodes (db : DB) (t : SeriesTransferLog) :
    (db.appendTransferLog t).comingSoonEpisodes = db.comingSoonEpisodes := rfl
@[simp] theorem appendTransferLog_series (db : DB) (t : SeriesTransferLog) :
    (db.appendTransferLog t).series = db.series := rfl
@[simp] theorem appendTransferLog_episodes (db : DB) (t : SeriesTransferLog) :
    (db.appendTransferLog t).episodes = db.episodes := rfl
@[simp] theorem appendTransferLog_transferLogs (db : DB) (t : SeriesTransferLog) :
    (db.appendTransferLog t).transferLogs = db.transferLogs ++ [t] := rfl
@[simp] theorem appendTransferLog_nextId (db : DB) (t : SeriesTransferLog) :
    (db.appendTransferLog t).nextId = db.nextId := rfl

/-- Mark-released then delete acts on the pending-episode list as a plain
delete-by-id: the transient `released` mark is erased with the record. -/
theorem markDelete_comingSoonEpisodes (db : DB) (i : Nat) :
    ((db.markCSEpisodeReleased i).deleteCSEpisode i).comingSoonEpisodes =
      db.comingSoonEpisodes.filter fun e => decide (¬ e.id = i) := by
  simpa [DB.markCSEpisodeReleased, DB.deleteCSEpisode] using
    filter_erase_update (fun e => e.id) i
      (fun e => { e with status := Status.released })
      (fun _ => rfl) db.comingSoonEpisodes

/-- Same fact for the pending-series mark-then-delete sequence. -/
theorem markDelete_comingSoonSeries (db : DB) (i : Nat) :
    ((db.markCSSeriesReleased i).deleteCSSeries i).comingSoonSeries =
      db.comingSoonSeries.filter fun s => decide (¬ s.id = i) := by
  simpa [DB.markCSSeriesReleased, DB.deleteCSSeries] using
    filter_erase_update (fun s => s.id) i
      (fun s => { s with status := Status.released })
      (fun _ => rfl) db.comingSoonSeries

/-- The seriesId-resolution update on episode `i` followed (after the mark)
by the deletion of episode `i` is also a plain delete-by-id. -/
theorem setMarkDelete_comingSoonEpisodes (db : DB) (i sid : Nat) :
    (((db.setCSEpisodeSeriesId i sid).markCSEpisodeReleased i).deleteCSEpisode
        i).comingSoonEpisodes =
      db.comingSoonEpisodes.filter fun e => decide (¬ e.id = i) := by
  rw [markDelete_comingSoonEpisodes]
  simpa [DB.setCSEpisodeSeriesId] using
    filter_erase_update (fun e => e.id) i
      (fun e => { e with seriesId := some sid })
      (fun _ => rfl) db.comingSoonEpisodes

end DB

/-! ## Per-item lemmas for the episode promoter -/

/-- Characterization of a successful `newEpisode.save()`. -/
theorem DB.saveEpisode_ok (db : DB) (f : Faults) (e : ComingSoonEpisode) (sid : Nat)
    (db1 : DB) (nid : Nat) (h : db.saveEpisode f e sid = .ok (db1, nid)) :
    db1 = ⟨db.comingSoonSeries, db.comingSoonEpisodes, db.series,
      db.episodes ++ [liveEpisodeOf e sid db.nextId], db.transferLogs,
      db.nextId + 1⟩ ∧ nid = db.nextId := by
  unfold DB.saveEpisode at h
  split at h
  · exact absurd h (by simp)
  · simp only [Except.ok.injEq, Prod.mk.injEq] at h
    exact ⟨h.1.symm, h.2.symm⟩

/-- A failing `newEpisode.save()` reports the injected error. -/
theorem DB.saveEpisode_error (db : DB) (f : Faults) (e : ComingSoonEpisode) (sid : Nat)
    (err : JsError) (h : db.saveEpisode f e sid = .error err) :
    f.episodeSave e.id = some err := by
  unfold DB.saveEpisode at h
  split at h
  · next e' he => simp only [Except.error.injEq] at h; rw [he, h]
  · exact absurd h (by simp)

/-- Releasing one linked episode never touches the transfer log, the
pending-series collection or the live-series collection. -/
theorem promoteEpisodeWith_frame (f : Faults) (db : DB) (e : ComingSoonEpisode)
    (sid : Nat) :
    (promoteEpisodeWith f db e sid).1.transferLogs = db.transferLogs ∧
    (promoteEpisodeWith f db e sid).1.comingSoonSeries = db.comingSoonSeries ∧
    (promoteEpisodeWith f db e sid).1.series = db.series := by
  unfold promoteEpisodeWith
  split
  · simp
  · split
    · simp
    · next db1 nid hok =>
        obtain ⟨h1, -⟩ := DB.saveEpisode_ok db f e sid db1 nid hok
        subst h1
        simp

/-- With no injected fault, releasing one linked episode reports no error,
removes exactly that pending record, and leaves a live episode with the
same `(seriesId, episode)` key in the store. -/
theorem promoteEpisodeWith_noFaults (db : DB) (e : ComingSoonEpisode) (sid : Nat) :
    (promoteEpisodeWith noFaults db e sid).2.2 = none ∧
    (promoteEpisodeWith noFaults db e sid).1.comingSoonEpisodes =
      db.comingSoonEpisodes.filter (fun x => decide (¬ x.id = e.id)) ∧
    (∃ lep ∈ (promoteEpisodeWith noFaults db e sid).1.episodes,
      lep.seriesId = sid ∧ lep.episode = e.episode) := by
  unfold promoteEpisodeWith
  split
  · next ex hfind =>
      refine ⟨rfl, DB.markDelete_comingSoonEpisodes db e.id, ex, ?_, ?_⟩
      · simpa [DB.findEpisode] using List.mem_of_find?_eq_some hfind
      · have h := List.find?_some hfind
        simpa using h
  · next hfind =>
      have hsave : db.saveEpisode noFaults e sid = Except.ok
          (⟨db.comingSoonSeries, db.comingSoonEpisodes, db.series,
            db.episodes ++ [liveEpisodeOf e sid db.nextId], db.transferLogs,
            db.nextId + 1⟩, db.nextId) := rfl
      rw [hsave]
      refine ⟨rfl, ?_, liveEpisodeOf e sid db.nextId, ?_, rfl, rfl⟩
      · have h := DB.markDelete_comingSoonEpisodes
          ⟨db.comingSoonSeries, db.comingSoonEpisodes, db.series,
            db.episodes ++ [liveEpisodeOf e sid db.nextId], db.transferLogs,
            db.nextId + 1⟩ e.id
        simpa using h
      · simp

/-- The transfer log, the pending-series collection and the live-series
collection are invariant under one step of the episode promoter. -/
theorem processDueEpisode_frame (f : Faults) (db : DB) (e : ComingSoonEpisode) :
    (processDueEpisode f db e).1.transferLogs = db.transferLogs ∧
    (processDueEpisode f db e).1.comingSoonSeries = db.comingSoonSeries ∧
    (processDueEpisode f db e).1.series = db.series := by
  unfold processDueEpisode
  split
  · exact promoteEpisodeWith_frame ..
  · split
    · split
      · next t _ =>
          have h := promoteEpisodeWith_frame f
            (db.setCSEpisodeSeriesId e.id t.seriesId) e t.seriesId
          simpa using h
      · exact ⟨rfl, rfl, rfl⟩
    · exact ⟨rfl, rfl, rfl⟩

/-- An episode the promoter cannot link this tick (`resolvableB` false) is
left entirely untouched: same store, nothing released, no error — this is
the silent `continue` in both skip paths. -/
theorem processDueEpisode_skip (f : Faults) (db : DB) (e : ComingSoonEpisode)
    (h : resolvableB db.transferLogs e = false) :
    processDueEpisode f db e = (db, none, none) := by
  unfold processDueEpisode
  unfold resolvableB at h
  split
  · next sid hs => rw [hs] at h; simp at h
  · next hs =>
      rw [hs] at h
      simp only at h
      split
      · next cid hc =>
          rw [hc] at h
          simp only at h
          split
          · next t ht =>
              exfalso
              rw [DB.findTransferLog] at ht
              rw [ht] at h
              simp at h
          · rfl
      · rfl

/-- With no injected fault, one step of the episode promoter reports no
error and its net effect on the pending-episode list is: delete the record
if the episode was linkable this tick, otherwise leave the list unchanged. -/
theorem processDueEpisode_noFaults (db : DB) (e : ComingSoonEpisode) :
    (processDueEpisode noFaults db e).2.2 = none ∧
    (processDueEpisode noFaults db e).1.comingSoonEpisodes =
      (if resolvableB db.transferLogs e then
        db.comingSoonEpisodes.filter (fun x => decide (¬ x.id = e.id))
      else db.comingSoonEpisodes) := by
  by_cases hres : resolvableB db.transferLogs e = true
  · rw [if_pos hres]
    unfold processDueEpisode
    unfold resolvableB at hres
    split
    · next sid hs =>
        exact ⟨(promoteEpisodeWith_noFaults db e sid).1,
          (promoteEpisodeWith_noFaults db e sid).2.1⟩
    · next hs =>
        rw [hs] at hres
        simp only at hres
        split
        · next cid hc =>
            rw [hc] at hres
            simp only at hres
            split
            · next t ht =>
                refine ⟨(promoteEpisodeWith_noFaults
                  (db.setCSEpisodeSeriesId e.id t.seriesId) e t.seriesId).1, ?_⟩
                rw [(promoteEpisodeWith_noFaults
                  (db.setCSEpisodeSeriesId e.id t.seriesId) e t.seriesId).2.1]
                simp only [DB.setCSEpisodeSeriesId]
                exact filter_erase_update (fun x => x.id) e.id
                  (fun x => { x with seriesId := some t.seriesId })
                  (fun _ => rfl) db.comingSoonEpisodes
            · next ht =>
                exfalso
                rw [DB.findTransferLog] at ht
                rw [ht] at hres
                simp at hres
        · next hc =>
            rw [hc] at hres
            simp at hres
  · have hres' : resolvableB db.transferLogs e = false := by
      revert hres; cases resolvableB db.transferLogs e <;> simp
    rw [if_neg hres, processDueEpisode_skip noFaults db e hres']
    exact ⟨rfl, rfl⟩

/-! ## The episode promoter loop -/

/-- After the ENOSPC `break` fired, the loop processes nothing further. -/
theorem episodeLoop_aborted (f : Faults) (r : EpisodeRun)
    (l : List ComingSoonEpisode) (h : r.aborted = true) :
    episodeLoop f r l = r := by
  cases l with
  | nil => rfl
  | cons e rest =>
      have h0 : episodeLoop f r (e :: rest) =
          (if r.aborted then r
          else
            match processDueEpisode f r.db e with
            | (db1, _rel, some err) =>
                if err.code = "ENOSPC" then
                  episodeLoop f { r with db := db1, aborted := true } rest
                else
                  episodeLoop f { r with db := db1, errors := r.errors ++ [(e.id, err.message)] } rest
            | (db1, some entry, none) =>
                episodeLoop f { r with db := db1, released := r.released ++ [entry] } rest
            | (db1, none, none) =>
                episodeLoop f { r with db := db1 } rest) := rfl
      rw [h0, h]
      simp

/-- Unfolding equation for one non-aborted loop iteration. -/
theorem episodeLoop_cons (f : Faults) (r : EpisodeRun) (e : ComingSoonEpisode)
    (rest : List ComingSoonEpisode) (h : r.aborted = false) :
    episodeLoop f r (e :: rest) =
      match processDueEpisode f r.db e with
      | (db1, _rel, some err) =>
          if err.code = "ENOSPC" then
            episodeLoop f { r with db := db1, aborted := true } rest
          else
            episodeLoop f
              { r with db := db1, errors := r.errors ++ [(e.id, err.message)] } rest
      | (db1, some entry, none) =>
          episodeLoop f { r with db := db1, released := r.released ++ [entry] } rest
      | (db1, none, none) =>
          episodeLoop f { r with db := db1 } rest := by
  have h0 : episodeLoop f r (e :: rest) =
      (if r.aborted then r
      else
        match processDueEpisode f r.db e with
        | (db1, _rel, some err) =>
            if err.code = "ENOSPC" then
              episodeLoop f { r with db := db1, aborted := true } rest
            else
              episodeLoop f
                { r with db := db1, errors := r.errors ++ [(e.id, err.message)] } rest
        | (db1, some entry, none) =>
            episodeLoop f { r with db := db1, released := r.released ++ [entry] } rest
        | (db1, none, none) =>
            episodeLoop f { r with db := db1 } rest) := rfl
  rw [h0, h]
  simp only [Bool.false_eq_true, if_false]

/-- A run of the episode-promoter loop with no injected faults: it never
aborts, records no errors, leaves the transfer log, the pending-series
collection and the live-series collection untouched, and its net effect on
the pending-episode collection is to delete exactly the processed episodes
that were linkable this tick. -/
theorem episodeLoop_noFaults (l : List ComingSoonEpisode) (r : EpisodeRun)
    (hab : r.aborted = false) :
    (episodeLoop noFaults r l).aborted = false ∧
    (episodeLoop noFaults r l).errors = r.errors ∧
    (episodeLoop noFaults r l).db.transferLogs = r.db.transferLogs ∧
    (episodeLoop noFaults r l).db.comingSoonSeries = r.db.comingSoonSeries ∧
    (episodeLoop noFaults r l).db.series = r.db.series ∧
    (episodeLoop noFaults r l).db.comingSoonEpisodes =
      r.db.comingSoonEpisodes.filter (fun x =>
        decide (¬ x.id ∈ (l.filter (resolvableB r.db.transferLogs)).map (·.id))) := by
  induction l generalizing r with
  | nil =>
      refine ⟨hab, rfl, rfl, rfl, rfl, ?_⟩
      show r.db.comingSoonEpisodes = _
      simp
  | cons e rest ih =>
      obtain ⟨herr, hcse⟩ := processDueEpisode_noFaults r.db e
      obtain ⟨hlog, hcss, hser⟩ := processDueEpisode_frame noFaults r.db e
      rcases hpe : processDueEpisode noFaults r.db e with ⟨db1, rel, err⟩
      rw [hpe] at herr hcse hlog hcss hser
      simp only at herr hcse hlog hcss hser
      subst herr
      rw [episodeLoop_cons noFaults r e rest hab, hpe, hab]
      have main : ∀ rl : List (Nat × Nat × Nat),
          (episodeLoop noFaults ⟨db1, rl, r.errors, false⟩ rest).aborted = false ∧
          (episodeLoop noFaults ⟨db1, rl, r.errors, false⟩ rest).errors = r.errors ∧
          (episodeLoop noFaults ⟨db1, rl, r.errors, false⟩ rest).db.transferLogs =
            r.db.transferLogs ∧
          (episodeLoop noFaults ⟨db1, rl, r.errors, false⟩ rest).db.comingSoonSeries =
            r.db.comingSoonSeries ∧
          (episodeLoop noFaults ⟨db1, rl, r.errors, false⟩ rest).db.series =
            r.db.series ∧
          (episodeLoop noFaults ⟨db1, rl, r.errors, false⟩ rest).db.comingSoonEpisodes =
            r.db.comingSoonEpisodes.filter (fun x =>
              decide (¬ x.id ∈
                ((e :: rest).filter (resolvableB r.db.transferLogs)).map (·.id))) := by
        intro rl
        obtain ⟨i1, i2, i3, i4, i5, i6⟩ := ih ⟨db1, rl, r.errors, false⟩ rfl
        refine ⟨i1, i2, i3.trans hlog, i4.trans hcss, i5.trans hser, i6.trans ?_⟩
        show db1.comingSoonEpisodes.filter (fun x =>
          decide (¬ x.id ∈
            (rest.filter (resolvableB db1.transferLogs)).map (·.id))) = _
        rw [hlog, hcse]
        by_cases hr : resolvableB r.db.transferLogs e = true
        · rw [if_pos hr, List.filter_cons_of_pos hr, List.filter_filter]
          apply List.filter_congr
          intro x _
          simp [List.mem_cons, not_or, Bool.and_comm]
        · have hr' : resolvableB r.db.transferLogs e = false := by
            revert hr; cases resolvableB r.db.transferLogs e <;> simp
          rw [if_neg hr, List.filter_cons_of_neg (by simp [hr'])]
      cases rel with
      | some entry => exact main (r.released ++ [entry])
      | none => exact main r.released

/-- If every listed episode is unlinkable against the current transfer log,
the loop is a complete no-op: store, reports and flags all unchanged. -/
theorem episodeLoop_skip_id (l : List ComingSoonEpisode) (f : Faults)
    (r : EpisodeRun) (hab : r.aborted = false)
    (hskip : ∀ e ∈ l, resolvableB r.db.transferLogs e = false) :
    episodeLoop f r l = r := by
  induction l with
  | nil => rfl
  | cons e rest ih =>
      rw [episodeLoop_cons f r e rest hab]
      rw [processDueEpisode_skip f r.db e (hskip e (by simp))]
      simp only
      have : ({ r with db := r.db } : EpisodeRun) = r := rfl
      rw [this]
      exact ih fun x hx => hskip x (by simp [hx])

/-! ## Per-item lemmas for the series promoter -/

/-- Characterization of a successful `newSeries.save()`. -/
theorem DB.saveSeries_ok (db : DB) (f : Faults) (csId : Nat) (cs : ComingSoonSeries)
    (db1 : DB) (nid : Nat) (h : db.saveSeries f csId cs = .ok (db1, nid)) :
    db1 = ⟨db.comingSoonSeries, db.comingSoonEpisodes,
      db.series ++ [liveSeriesOf cs db.nextId], db.episodes, db.transferLogs,
      db.nextId + 1⟩ ∧ nid = db.nextId := by
  unfold DB.saveSeries at h
  split at h
  · exact absurd h (by simp)
  · simp only [Except.ok.injEq, Prod.mk.injEq] at h
    exact ⟨h.1.symm, h.2.symm⟩

/-- A failing `newSeries.save()` reports the injected error. -/
theorem DB.saveSeries_error (db : DB) (f : Faults) (csId : Nat) (cs : ComingSoonSeries)
    (err : JsError) (h : db.saveSeries f csId cs = .error err) :
    f.seriesSave csId = some err := by
  unfold DB.saveSeries at h
  split at h
  · next e' he => simp only [Except.error.injEq] at h; rw [he, h]
  · exact absurd h (by simp)

/-- Any error on one episode of the release-with-parent pass — storage
exhaustion included — is swallowed by the inner per-episode handler:
the store is left exactly as it was and nothing is recorded anywhere. -/
theorem seriesInnerEpisode_swallow (f : Faults) (db : DB) (nid : Nat)
    (e : ComingSoonEpisode) (err : JsError)
    (hfind : db.findEpisode nid e.episode = none)
    (hf : f.episodeSave e.id = some err) :
    seriesInnerEpisode f db nid e = db := by
  unfold seriesInnerEpisode
  rw [hfind]
  have hsv : db.saveEpisode f e nid = .error err := by
    unfold DB.saveEpisode; rw [hf]
  rw [hsv]

/-- If a live episode with the same `(seriesId, episode)` key already
exists, the release-with-parent pass deletes the pending record without
creating anything. -/
theorem seriesInnerEpisode_duplicate (f : Faults) (db : DB) (nid : Nat)
    (e : ComingSoonEpisode) (ex : Episode)
    (hfind : db.findEpisode nid e.episode = some ex) :
    seriesInnerEpisode f db nid e = (db.markCSEpisodeReleased e.id).deleteCSEpisode e.id := by
  unfold seriesInnerEpisode
  rw [hfind]

/-- One fault-free step of the release-with-parent pass: pending-series,
live-series and transfer-log collections untouched, the counter does not
decrease, live episodes only appended (all with parent `nid` and fresh
ids), exactly the processed pending record removed, and a live episode
with key `(nid, e.episode)` present afterwards. -/
theorem seriesInnerEpisode_noFaults (db : DB) (nid : Nat) (e : ComingSoonEpisode) :
    (seriesInnerEpisode noFaults db nid e).comingSoonSeries = db.comingSoonSeries ∧
    (seriesInnerEpisode noFaults db nid e).series = db.series ∧
    (seriesInnerEpisode noFaults db nid e).transferLogs = db.transferLogs ∧
    db.nextId ≤ (seriesInnerEpisode noFaults db nid e).nextId ∧
    (∃ Y, (seriesInnerEpisode noFaults db nid e).episodes = db.episodes ++ Y ∧
      ∀ p ∈ Y, db.nextId ≤ p.id ∧
        p.id < (seriesInnerEpisode noFaults db nid e).nextId ∧ p.seriesId = nid) ∧
    (seriesInnerEpisode noFaults db nid e).comingSoonEpisodes =
      db.comingSoonEpisodes.filter (fun x => decide (¬ x.id = e.id)) ∧
    (∃ lep ∈ (seriesInnerEpisode noFaults db nid e).episodes,
      lep.seriesId = nid ∧ lep.episode = e.episode) := by
  unfold seriesInnerEpisode
  split
  · next ex hfind =>
      refine ⟨rfl, rfl, rfl, le_refl _, ⟨[], by simp, by simp⟩,
        DB.markDelete_comingSoonEpisodes db e.id, ex, ?_, ?_⟩
      · simpa [DB.findEpisode] using List.mem_of_find?_eq_some hfind
      · have h := List.find?_some hfind
        simpa using h
  · next hfind =>
      have hsave : db.saveEpisode noFaults e nid = Except.ok
          (⟨db.comingSoonSeries, db.comingSoonEpisodes, db.series,
            db.episodes ++ [liveEpisodeOf e nid db.nextId], db.transferLogs,
            db.nextId + 1⟩, db.nextId) := rfl
      rw [hsave]
      refine ⟨rfl, rfl, rfl, by simp, ⟨[liveEpisodeOf e nid db.nextId], by simp, ?_⟩,
        ?_, liveEpisodeOf e nid db.nextId, ?_, rfl, rfl⟩
      · intro p hp
        simp only [List.mem_singleton] at hp
        subst hp
        exact ⟨le_refl _, by simp [liveEpisodeOf], rfl⟩
      · have h := DB.markDelete_comingSoonEpisodes
          ⟨db.comingSoonSeries, db.comingSoonEpisodes, db.series,
            db.episodes ++ [liveEpisodeOf e nid db.nextId], db.transferLogs,
            db.nextId + 1⟩ e.id
        simpa using h
      · simp

/-- The release-with-parent fold over a list of pending episodes, with no
injected faults: frame conditions plus deletion of exactly the listed
records and existence of a live episode for each of them. -/
theorem innerFold_noFaults (nid : Nat) (l : List ComingSoonEpisode) (d : DB) :
    ((l.foldl (fun x e => seriesInnerEpisode noFaults x nid e) d)).comingSoonSeries =
      d.comingSoonSeries ∧
    ((l.foldl (fun x e => seriesInnerEpisode noFaults x nid e) d)).series = d.series ∧
    ((l.foldl (fun x e => seriesInnerEpisode noFaults x nid e) d)).transferLogs =
      d.transferLogs ∧
    d.nextId ≤ ((l.foldl (fun x e => seriesInnerEpisode noFaults x nid e) d)).nextId ∧
    (∃ Y, ((l.foldl (fun x e => seriesInnerEpisode noFaults x nid e) d)).episodes =
      d.episodes ++ Y ∧ ∀ p ∈ Y, d.nextId ≤ p.id ∧
        p.id < ((l.foldl (fun x e => seriesInnerEpisode noFaults x nid e) d)).nextId ∧
        p.seriesId = nid) ∧
    ((l.foldl (fun x e => seriesInnerEpisode noFaults x nid e) d)).comingSoonEpisodes =
      d.comingSoonEpisodes.filter (fun x => decide (¬ x.id ∈ l.map (·.id))) ∧
    (∀ e ∈ l, ∃ lep ∈ ((l.foldl (fun x e => seriesInnerEpisode noFaults x nid e) d)).episodes,
      lep.seriesId = nid ∧ lep.episode = e.episode) := by
  induction l generalizing d with
  | nil =>
      refine ⟨rfl, rfl, rfl, le_refl _, ⟨[], by simp, by simp⟩, ?_, by simp⟩
      simp
  | cons e rest ih =>
      obtain ⟨s1, s2, s3, s4, ⟨Y1, hY1, hY1p⟩, s6, lep0, hlep0, hlep0p⟩ :=
        seriesInnerEpisode_noFaults d nid e
      obtain ⟨i1, i2, i3, i4, ⟨Y2, hY2, hY2p⟩, i6, i7⟩ :=
        ih (seriesInnerEpisode noFaults d nid e)
      rw [List.foldl_cons]
      refine ⟨i1.trans s1, i2.trans s2, i3.trans s3, le_trans s4 i4,
        ⟨Y1 ++ Y2, ?_, ?_⟩, ?_, ?_⟩
      · rw [i6] at *
        rw [hY2, hY1, List.append_assoc]
      · intro p hp
        rcases List.mem_append.mp hp with hp1 | hp2
        · obtain ⟨ha, hb, hc⟩ := hY1p p hp1
          exact ⟨ha, lt_of_lt_of_le hb i4, hc⟩
        · obtain ⟨ha, hb, hc⟩ := hY2p p hp2
          exact ⟨le_trans s4 ha, hb, hc⟩
      · rw [i6, s6, List.filter_filter]
        apply List.filter_congr
        intro x _
        simp [List.mem_cons, not_or, Bool.and_comm]
      · intro x hx
        rcases List.mem_cons.mp hx with hx1 | hx2
        · subst hx1
          refine ⟨lep0, ?_, hlep0p⟩
          rw [hY2]
          exact List.mem_append.mpr (Or.inl hlep0)
        · exact i7 x hx2


/-- Fault-free processing of one due series: the released entry is
`(db.nextId, cs.title)`, no error is reported, and the store changes are:
one live series appended (the field-for-field copy with `viewCount = 0`),
one transfer-log entry appended referencing `cs.id` and the new id, the
pending-series record removed, the due linked episodes relinked and then
removed, a live episode present for each of them, and only fresh-id live
episodes of the new series appended. -/
theorem processDueSeries_noFaults (now : Nat) (db : DB) (cs : ComingSoonSeries) :
    processDueSeries noFaults now db cs =
      ((processDueSeries noFaults now db cs).1, some (db.nextId, cs.title), none) ∧
    (processDueSeries noFaults now db cs).1.series =
      db.series ++ [liveSeriesOf cs db.nextId] ∧
    (processDueSeries noFaults now db cs).1.transferLogs =
      db.transferLogs ++ [transferLogOf cs db.nextId now] ∧
    (processDueSeries noFaults now db cs).1.comingSoonSeries =
      db.comingSoonSeries.filter (fun s => decide (¬ s.id = cs.id)) ∧
    db.nextId + 1 ≤ (processDueSeries noFaults now db cs).1.nextId ∧
    (∃ Y, (processDueSeries noFaults now db cs).1.episodes = db.episodes ++ Y ∧
      ∀ p ∈ Y, db.nextId ≤ p.id ∧
        p.id < (processDueSeries noFaults now db cs).1.nextId ∧
        p.seriesId = db.nextId) ∧
    (processDueSeries noFaults now db cs).1.comingSoonEpisodes =
      ((db.relinkEpisodes cs.id db.nextId).comingSoonEpisodes).filter (fun x =>
        decide (¬ x.id ∈ (seriesInnerQuery db cs db.nextId).map (·.id))) ∧
    (∀ e ∈ seriesInnerQuery db cs db.nextId,
      ∃ lep ∈ (processDueSeries noFaults now db cs).1.episodes,
        lep.seriesId = db.nextId ∧ lep.episode = e.episode) := by
  have hstep : (processDueSeries noFaults now db cs).1 =
      (seriesInnerQuery db cs db.nextId).foldl
        (fun d e => seriesInnerEpisode noFaults d db.nextId e)
        ⟨(db.comingSoonSeries.map (fun s =>
            if s.id = cs.id then { s with status := Status.released } else s)).filter
            (fun s => decide (¬ s.id = cs.id)),
          db.comingSoonEpisodes.map (fun e =>
            if e.comingSoonSeriesId = some cs.id then { e with seriesId := some db.nextId }
            else e),
          db.series ++ [liveSeriesOf cs db.nextId],
          db.episodes,
          db.transferLogs ++ [transferLogOf cs db.nextId now],
          db.nextId + 1⟩ := rfl
  obtain ⟨c1, c2, c3, c4, ⟨Y, hY, hYp⟩, c6, c7⟩ := innerFold_noFaults db.nextId
    (seriesInnerQuery db cs db.nextId)
    ⟨(db.comingSoonSeries.map (fun s =>
        if s.id = cs.id then { s with status := Status.released } else s)).filter
        (fun s => decide (¬ s.id = cs.id)),
      db.comingSoonEpisodes.map (fun e =>
        if e.comingSoonSeriesId = some cs.id then { e with seriesId := some db.nextId }
        else e),
      db.series ++ [liveSeriesOf cs db.nextId],
      db.episodes,
      db.transferLogs ++ [transferLogOf cs db.nextId now],
      db.nextId + 1⟩
  refine ⟨rfl, ?_, ?_, ?_, ?_, ?_, ?_, ?_⟩
  · rw [hstep, c2]
  · rw [hstep, c3]
  · rw [hstep, c1]
    exact filter_erase_update (fun s => s.id) cs.id
      (fun s => { s with status := Status.released }) (fun _ => rfl)
      db.comingSoonSeries
  · rw [hstep]; exact c4
  · refine ⟨Y, ?_, ?_⟩
    · rw [hstep, hY]
    · intro p hp
      obtain ⟨ha, hb, hc⟩ := hYp p hp
      refine ⟨le_trans (Nat.le_succ _) ha, ?_, hc⟩
      rw [hstep]
      exact hb
  · rw [hstep, c6]; rfl
  · intro e he
    obtain ⟨lep, hlep, hp⟩ := c7 e he
    refine ⟨lep, ?_, hp⟩
    rw [hstep]
    exact hlep

/-- An id-preserving update leaves the id image of a list unchanged. -/
theorem map_id_of_update {α β : Type} (k : α → β) (u : α → α)
    (hu : ∀ a, k (u a) = k a) (l : List α) :
    (l.map u).map k = l.map k := by
  induction l with
  | nil => rfl
  | cons a l ih => simp [hu, ih]

/-- The relink map of `relinkEpisodes` preserves record ids. -/
theorem relink_update_id (cid sid : Nat) (e : ComingSoonEpisode) :
    (if e.comingSoonSeriesId = some cid then { e with seriesId := some sid }
      else e).id = e.id := by
  split <;> rfl

/-- Fault-free processing of one due series preserves store
well-formedness. -/
theorem processDueSeries_preserves_wf (now : Nat) (db : DB) (cs : ComingSoonSeries)
    (hwf : db.wf) : (processDueSeries noFaults now db cs).1.wf := by
  obtain ⟨⟨hf1, hf2, hf3, hf4⟩, hnd1, hnd2⟩ := hwf
  obtain ⟨_, c2, c3, c4, c5, ⟨Y, hY, hYp⟩, c6, _⟩ := processDueSeries_noFaults now db cs
  have hnext : db.nextId < (processDueSeries noFaults now db cs).1.nextId :=
    lt_of_lt_of_le (Nat.lt_succ_self _) c5
  refine ⟨⟨?_, ?_, ?_, ?_⟩, ?_, ?_⟩
  · rw [c2]
    intro s hs
    rcases List.mem_append.mp hs with h | h
    · exact lt_trans (hf1 s h) hnext
    · simp only [List.mem_singleton] at h
      subst h
      exact lt_of_lt_of_le (Nat.lt_succ_self _) c5
  · rw [hY]
    intro p hp
    rcases List.mem_append.mp hp with h | h
    · exact ⟨lt_trans (hf2 p h).1 hnext, lt_trans (hf2 p h).2 hnext⟩
    · obtain ⟨_, hb, hc⟩ := hYp p h
      exact ⟨hb, hc ▸ hnext⟩
  · rw [c3]
    intro t ht
    rcases List.mem_append.mp ht with h | h
    · exact lt_trans (hf3 t h) hnext
    · simp only [List.mem_singleton] at h
      subst h
      exact hnext
  · rw [c6]
    intro e he sid hsid
    have he1 : e ∈ (db.relinkEpisodes cs.id db.nextId).comingSoonEpisodes :=
      (List.mem_filter.mp he).1
    simp only [DB.relinkEpisodes] at he1
    obtain ⟨e0, he0, heq⟩ := List.mem_map.mp he1
    by_cases hc : e0.comingSoonSeriesId = some cs.id
    · rw [if_pos hc] at heq
      subst heq
      simp only [Option.some.injEq] at hsid
      subst hsid
      exact hnext
    · rw [if_neg hc] at heq
      subst heq
      exact lt_trans (hf4 e0 he0 sid hsid) hnext
  · rw [(processDueSeries_noFaults now db cs).2.2.2.1]
    exact hnd1.sublist ((List.filter_sublist _).map _)
  · rw [c6]
    have hrw : ((db.relinkEpisodes cs.id db.nextId).comingSoonEpisodes.map (·.id)) =
        db.comingSoonEpisodes.map (·.id) := by
      simp only [DB.relinkEpisodes]
      exact map_id_of_update _ _ (relink_update_id cs.id db.nextId) _
    have h2 : ((db.relinkEpisodes cs.id db.nextId).comingSoonEpisodes.map (·.id)).Nodup := by
      rw [hrw]; exact hnd2
    exact h2.sublist ((List.filter_sublist _).map _)

/-- A pending episode not linked to the series being promoted — and whose
`seriesId` reference, if any, is to an already existing (hence non-fresh)
live series — survives that series' promotion step verbatim. -/
theorem processDueSeries_frame_ep (now : Nat) (db : DB) (cs : ComingSoonSeries)
    (e2 : ComingSoonEpisode)
    (hnd : (db.comingSoonEpisodes.map (·.id)).Nodup)
    (hmem : e2 ∈ db.comingSoonEpisodes)
    (hcsid : ¬ e2.comingSoonSeriesId = some cs.id)
    (hsid : ∀ sid, e2.seriesId = some sid → sid < db.nextId) :
    e2 ∈ (processDueSeries noFaults now db cs).1.comingSoonEpisodes := by
  obtain ⟨_, _, _, _, _, _, c6, _⟩ := processDueSeries_noFaults now db cs
  rw [c6]
  have hue : (if e2.comingSoonSeriesId = some cs.id then
      { e2 with seriesId := some db.nextId } else e2) = e2 := if_neg hcsid
  refine List.mem_filter.mpr ⟨?_, ?_⟩
  · simp only [DB.relinkEpisodes]
    exact List.mem_map.mpr ⟨e2, hmem, hue⟩
  · simp only [decide_eq_true_eq]
    intro hin
    obtain ⟨x, hx, hxid⟩ := List.mem_map.mp hin
    obtain ⟨hx1, hx2⟩ := List.mem_filter.mp hx
    simp only [DB.relinkEpisodes] at hx1
    obtain ⟨e0, he0, heq⟩ := List.mem_map.mp hx1
    have hxid0 : x.id = e0.id := by
      rw [← heq]; exact relink_update_id cs.id db.nextId e0
    have he0e2 : e0 = e2 :=
      List.inj_on_of_nodup_map hnd he0 hmem (by rw [← hxid0, hxid])
    subst he0e2
    rw [if_neg hcsid] at heq
    subst heq
    simp only [decide_eq_true_eq] at hx2
    rcases hx2.1 with h | h
    · exact absurd rfl (Nat.ne_of_lt (hsid db.nextId h)).symm
    · exact hcsid h

/-! ## The series promoter loop -/

/-- After the ENOSPC `break` fired, the loop processes nothing further. -/
theorem seriesLoop_aborted (f : Faults) (now : Nat) (r : SeriesRun)
    (l : List ComingSoonSeries) (h : r.aborted = true) :
    seriesLoop f now r l = r := by
  cases l with
  | nil => rfl
  | cons cs rest =>
      have h0 : seriesLoop f now r (cs :: rest) =
          (if r.aborted then r
          else
            match processDueSeries f now r.db cs with
            | (db1, _rel, some err) =>
                if err.code = "ENOSPC" then
                  seriesLoop f now { r with db := db1, aborted := true } rest
                else
                  seriesLoop f now { r with db := db1, errors := r.errors ++ [(cs.id, err.message)] } rest
            | (db1, some entry, none) =>
                seriesLoop f now { r with db := db1, released := r.released ++ [entry] } rest
            | (db1, none, none) =>
                seriesLoop f now { r with db := db1 } rest) := rfl
      rw [h0, h]
      simp

/-- Unfolding equation for one non-aborted loop iteration. -/
theorem seriesLoop_cons (f : Faults) (now : Nat) (r : SeriesRun)
    (cs : ComingSoonSeries) (rest : List ComingSoonSeries) (h : r.aborted = false) :
    seriesLoop f now r (cs :: rest) =
      match processDueSeries f now r.db cs with
      | (db1, _rel, some err) =>
          if err.code = "ENOSPC" then
            seriesLoop f now { r with db := db1, aborted := true } rest
          else
            seriesLoop f now { r with db := db1, errors := r.errors ++ [(cs.id, err.message)] } rest
      | (db1, some entry, none) =>
          seriesLoop f now { r with db := db1, released := r.released ++ [entry] } rest
      | (db1, none, none) =>
          seriesLoop f now { r with db := db1 } rest := by
  have h0 : seriesLoop f now r (cs :: rest) =
      (if r.aborted then r
      else
        match processDueSeries f now r.db cs with
        | (db1, _rel, some err) =>
            if err.code = "ENOSPC" then
              seriesLoop f now { r with db := db1, aborted := true } rest
            else
              seriesLoop f now { r with db := db1, errors := r.errors ++ [(cs.id, err.message)] } rest
        | (db1, some entry, none) =>
            seriesLoop f now { r with db := db1, released := r.released ++ [entry] } rest
        | (db1, none, none) =>
            seriesLoop f now { r with db := db1 } rest) := rfl
  rw [h0, h]
  simp only [Bool.false_eq_true, if_false]

/-- Administrative facts about a fault-free run of the series-promoter
loop: it never aborts, records no errors, only appends (fresh-id) live
series, transfer-log entries and live episodes, removes exactly the
processed pending-series records, never introduces pending-episode ids,
and appends per processed series exactly one transfer-log entry carrying
that series' pending id. -/
theorem seriesLoop_noFaults (now : Nat) (l : List ComingSoonSeries) (r : SeriesRun)
    (hab : r.aborted = false) :
    (seriesLoop noFaults now r l).aborted = false ∧
    (seriesLoop noFaults now r l).errors = r.errors ∧
    r.db.nextId ≤ (seriesLoop noFaults now r l).db.nextId ∧
    (∃ X, (seriesLoop noFaults now r l).db.series = r.db.series ++ X ∧
      ∀ s ∈ X, r.db.nextId ≤ s.id) ∧
    (∃ Z, (seriesLoop noFaults now r l).db.transferLogs = r.db.transferLogs ++ Z) ∧
    (∃ Y, (seriesLoop noFaults now r l).db.episodes = r.db.episodes ++ Y) ∧
    (seriesLoop noFaults now r l).db.comingSoonSeries =
      r.db.comingSoonSeries.filter (fun s => decide (¬ s.id ∈ l.map (·.id))) ∧
    (∀ j, ¬ j ∈ r.db.comingSoonEpisodes.map (·.id) →
      ¬ j ∈ (seriesLoop noFaults now r l).db.comingSoonEpisodes.map (·.id)) ∧
    (∀ i, (seriesLoop noFaults now r l).db.transferLogs.countP
        (fun t => decide (t.comingSoonSeriesId = i)) =
      r.db.transferLogs.countP (fun t => decide (t.comingSoonSeriesId = i)) +
        l.countP (fun c => decide (c.id = i))) := by
  induction l generalizing r with
  | nil =>
      refine ⟨hab, rfl, le_refl _, ⟨[], ?_, by simp⟩, ⟨[], ?_⟩,
        ⟨[], ?_⟩, ?_, fun j h => h, ?_⟩
      · show r.db.series = _
        simp
      · show r.db.transferLogs = _
        simp
      · show r.db.episodes = _
        simp
      · show r.db.comingSoonSeries = _
        simp
      · intro i
        show List.countP _ r.db.transferLogs = _
        simp
  | cons cs rest ih =>
      obtain ⟨c1, c2, c3, c4, c5, ⟨Y, hY, hYp⟩, c6, c7⟩ :=
        processDueSeries_noFaults now r.db cs
      rw [seriesLoop_cons noFaults now r cs rest hab, c1, hab]
      set dbS := (processDueSeries noFaults now r.db cs).1 with hdbS
      obtain ⟨i1, i2, i3, ⟨X2, hX2, hX2p⟩, ⟨Z2, hZ2⟩, ⟨Y2, hY2⟩, i7, i8, i9⟩ :=
        ih ⟨dbS, r.released ++ [(r.db.nextId, cs.title)], r.errors, false⟩ rfl
      have hnn : r.db.nextId ≤ dbS.nextId := le_trans (Nat.le_succ _) c5
      refine ⟨i1, i2, le_trans hnn i3, ⟨[liveSeriesOf cs r.db.nextId] ++ X2, ?_, ?_⟩,
        ⟨[transferLogOf cs r.db.nextId now] ++ Z2, ?_⟩, ⟨Y ++ Y2, ?_⟩, ?_, ?_, ?_⟩
      · rw [hX2]
        show dbS.series ++ X2 = _
        rw [c2, List.append_assoc]
      · intro s hs
        rcases List.mem_append.mp hs with h | h
        · simp only [List.mem_singleton] at h
          subst h
          simp [liveSeriesOf]
        · exact le_trans hnn (hX2p s h)
      · rw [hZ2]
        show dbS.transferLogs ++ Z2 = _
        rw [c3, List.append_assoc]
      · rw [hY2]
        show dbS.episodes ++ Y2 = _
        rw [hY, List.append_assoc]
      · rw [i7]
        show dbS.comingSoonSeries.filter _ = _
        rw [c4, List.filter_filter]
        apply List.filter_congr
        intro x _
        simp [List.mem_cons, not_or, Bool.and_comm]
      · intro j hj
        refine i8 j ?_
        show ¬ j ∈ dbS.comingSoonEpisodes.map (·.id)
        rw [c6]
        intro hin
        obtain ⟨x, hx, hxid⟩ := List.mem_map.mp hin
        have hx1 := (List.mem_filter.mp hx).1
        simp only [DB.relinkEpisodes] at hx1
        obtain ⟨e0, he0, heq⟩ := List.mem_map.mp hx1
        have : x.id = e0.id := by
          rw [← heq]; exact relink_update_id cs.id r.db.nextId e0
        exact hj (List.mem_map.mpr ⟨e0, he0, by rw [← this, hxid]⟩)
      · intro i
        rw [i9]
        show dbS.transferLogs.countP _ + _ = _
        rw [c3, List.countP_append]
        have hone : List.countP (fun t => decide (t.comingSoonSeriesId = i))
            [transferLogOf cs r.db.nextId now] =
            List.countP (fun c => decide (c.id = i)) [cs] := by
          simp [transferLogOf, List.countP_cons]
        rw [hone]
        simp only [List.countP_cons, List.countP_nil]
        generalize (if (decide (cs.id = i)) = true then 1 else 0) = k
        generalize List.countP (fun t => decide (t.comingSoonSeriesId = i))
          r.db.transferLogs = a
        generalize List.countP (fun c => decide (c.id = i)) rest = b
        omega

/-- A fault-free series-promoter loop pass, seen from one listed pending
series `cs` (under store well-formedness and distinct listed ids): some
fresh id `nid` exists such that the field-for-field live copy of `cs`
(`viewCount` zeroed) is in the final store and is the only live series
with id `nid`, the transfer-log entry pairing `cs.id` with `nid` is
present, and every pending episode linked to `cs` — regardless of its own
`scheduledReleaseDate` — is gone from the pending collection while a live
episode of series `nid` with its episode number exists. -/
theorem seriesLoop_promotes (now : Nat) (l : List ComingSoonSeries) :
    ∀ (r : SeriesRun), r.aborted = false → r.db.wf → (l.map (·.id)).Nodup →
    ∀ cs ∈ l,
    ∃ nid, r.db.nextId ≤ nid ∧
      liveSeriesOf cs nid ∈ (seriesLoop noFaults now r l).db.series ∧
      (seriesLoop noFaults now r l).db.series.countP
        (fun s => decide (s.id = nid)) = 1 ∧
      transferLogOf cs nid now ∈ (seriesLoop noFaults now r l).db.transferLogs ∧
      (∀ e ∈ r.db.comingSoonEpisodes, e.comingSoonSeriesId = some cs.id →
        e.status = Status.pending →
          ¬ e.id ∈ (seriesLoop noFaults now r l).db.comingSoonEpisodes.map (·.id) ∧
          ∃ lep ∈ (seriesLoop noFaults now r l).db.episodes,
            lep.seriesId = nid ∧ lep.episode = e.episode) := by
  induction l with
  | nil => intro r _ _ _ cs hcs; cases hcs
  | cons c rest ih =>
      intro r hab hwf hndl cs hcs
      obtain ⟨c1, c2, c3, c4, c5, ⟨Y, hY, hYp⟩, c6, c7⟩ :=
        processDueSeries_noFaults now r.db c
      rw [seriesLoop_cons noFaults now r c rest hab, c1, hab]
      have hwf1 : (processDueSeries noFaults now r.db c).1.wf :=
        processDueSeries_preserves_wf now r.db c hwf
      obtain ⟨hnotin, hrestnd⟩ :
          (∀ x ∈ rest, ¬ x.id = c.id) ∧ (rest.map (fun x => x.id)).Nodup := by
        simpa using hndl
      obtain ⟨a1, a2, a3, ⟨X2, hX2, hX2p⟩, ⟨Z2, hZ2⟩, ⟨Y2, hY2⟩, a7, a8, a9⟩ :=
        seriesLoop_noFaults now rest
          ⟨(processDueSeries noFaults now r.db c).1,
            r.released ++ [(r.db.nextId, c.title)], r.errors, false⟩ rfl
      rcases List.mem_cons.mp hcs with hceq | hcs'
      · subst hceq
        refine ⟨r.db.nextId, le_refl _, ?_, ?_, ?_, ?_⟩
        · rw [hX2]
          show liveSeriesOf cs r.db.nextId ∈
            (processDueSeries noFaults now r.db cs).1.series ++ X2
          rw [c2]
          exact List.mem_append.mpr (Or.inl (List.mem_append.mpr (Or.inr (by simp))))
        · rw [hX2]
          show List.countP _
            ((processDueSeries noFaults now r.db cs).1.series ++ X2) = 1
          rw [c2, List.countP_append, List.countP_append]
          have h0 : r.db.series.countP (fun s => decide (s.id = r.db.nextId)) = 0 := by
            refine List.countP_eq_zero.mpr ?_
            intro s hs
            have := hwf.1.1 s hs
            simp only [decide_eq_true_eq]
            omega
          have h1 : List.countP (fun s => decide (s.id = r.db.nextId))
              [liveSeriesOf cs r.db.nextId] = 1 := by
            simp [liveSeriesOf, List.countP_cons]
          have h2 : X2.countP (fun s => decide (s.id = r.db.nextId)) = 0 := by
            refine List.countP_eq_zero.mpr ?_
            intro s hs
            have hx : (processDueSeries noFaults now r.db cs).1.nextId ≤ s.id :=
              hX2p s hs
            have hnn : r.db.nextId + 1 ≤
                (processDueSeries noFaults now r.db cs).1.nextId := c5
            simp only [decide_eq_true_eq]
            omega
          rw [h0, h1, h2]
        · rw [hZ2]
          show transferLogOf cs r.db.nextId now ∈
            (processDueSeries noFaults now r.db cs).1.transferLogs ++ Z2
          rw [c3]
          exact List.mem_append.mpr (Or.inl (List.mem_append.mpr (Or.inr (by simp))))
        · intro e he hcse hst
          have hue : (if e.comingSoonSeriesId = some cs.id then
              { e with seriesId := some r.db.nextId } else e) =
              { e with seriesId := some r.db.nextId } := if_pos hcse
          have hueQ : ({ e with seriesId := some r.db.nextId } : ComingSoonEpisode) ∈
              seriesInnerQuery r.db cs r.db.nextId := by
            refine List.mem_filter.mpr ⟨?_, ?_⟩
            · simp only [DB.relinkEpisodes]
              exact List.mem_map.mpr ⟨e, he, hue⟩
            · simp only [decide_eq_true_eq]
              exact ⟨Or.inr hcse, hst⟩
          constructor
          · refine a8 e.id ?_
            show ¬ e.id ∈ (processDueSeries noFaults now r.db cs).1.comingSoonEpisodes.map (·.id)
            rw [c6]
            intro hin
            obtain ⟨x, hx, hxid⟩ := List.mem_map.mp hin
            have hx2 := (List.mem_filter.mp hx).2
            simp only [decide_eq_true_eq] at hx2
            refine hx2 ?_
            rw [hxid]
            exact List.mem_map.mpr ⟨{ e with seriesId := some r.db.nextId }, hueQ, rfl⟩
          · obtain ⟨lep, hlep, hps, hpe⟩ := c7 _ hueQ
            refine ⟨lep, ?_, hps, hpe⟩
            rw [hY2]
            exact List.mem_append.mpr (Or.inl hlep)
      · have hcne : ¬ c.id = cs.id := fun h => hnotin cs hcs' h.symm
        obtain ⟨nid, hnid, p1, p2, p3, p4⟩ :=
          ih ⟨(processDueSeries noFaults now r.db c).1,
            r.released ++ [(r.db.nextId, c.title)], r.errors, false⟩
            rfl hwf1 hrestnd cs hcs'
        refine ⟨nid, ?_, p1, p2, p3, ?_⟩
        · exact le_trans (le_trans (Nat.le_succ _) c5) hnid
        · intro e he hcse hst
          have hframe : e ∈ (processDueSeries noFaults now r.db c).1.comingSoonEpisodes := by
            refine processDueSeries_frame_ep now r.db c e hwf.2.2 he ?_ ?_
            · rw [hcse]
              intro h
              simp only [Option.some.injEq] at h
              exact hcne h.symm
            · exact fun sid hs => hwf.1.2.2.2 e he sid hs
          exact p4 e hframe hcse hst

/-! ## Entry points, loop composition and error-path shapes -/

/-- When the initial `find` does not throw, `releaseComingSoonSeries` is
exactly the loop over the due snapshot. -/
theorem releaseComingSoonSeries_eq_loop (f : Faults) (now : Nat) (db : DB)
    (h : f.seriesFind = none) :
    releaseComingSoonSeries f now db =
      seriesLoop f now ⟨db, [], [], false⟩ (db.dueSeries now) := by
  unfold releaseComingSoonSeries releaseComingSoonSeriesTry
  rw [h]

/-- When the initial `find` does not throw, `releaseComingSoonEpisodes` is
exactly the loop over the due snapshot. -/
theorem releaseComingSoonEpisodes_eq_loop (f : Faults) (now : Nat) (db : DB)
    (h : f.episodeFind = none) :
    releaseComingSoonEpisodes f now db =
      episodeLoop f ⟨db, [], [], false⟩ (db.dueEpisodes now) := by
  unfold releaseComingSoonEpisodes releaseComingSoonEpisodesTry
  rw [h]

/-- The series loop splits over list concatenation. -/
theorem seriesLoop_append (f : Faults) (now : Nat) (l1 l2 : List ComingSoonSeries) :
    ∀ r : SeriesRun,
      seriesLoop f now r (l1 ++ l2) = seriesLoop f now (seriesLoop f now r l1) l2 := by
  induction l1 with
  | nil => intro r; rfl
  | cons c rest ih =>
      intro r
      by_cases hab : r.aborted = true
      · rw [seriesLoop_aborted f now r _ hab, seriesLoop_aborted f now r _ hab,
          seriesLoop_aborted f now r _ hab]
      · have hab' : r.aborted = false := by
          revert hab; cases r.aborted <;> simp
        rw [List.cons_append, seriesLoop_cons f now r c (rest ++ l2) hab',
          seriesLoop_cons f now r c rest hab']
        rcases hps : processDueSeries f now r.db c with ⟨db1, rel, err⟩
        cases err with
        | some e =>
            have key : ∀ rl : List (Nat × String),
                (if e.code = "ENOSPC" then
                    seriesLoop f now
                      { db := db1, released := rl, errors := r.errors,
                        aborted := true } (rest ++ l2)
                  else
                    seriesLoop f now
                      { db := db1, released := rl,
                        errors := r.errors ++ [(c.id, e.message)],
                        aborted := r.aborted } (rest ++ l2)) =
                  seriesLoop f now
                    (if e.code = "ENOSPC" then
                      seriesLoop f now
                        { db := db1, released := rl, errors := r.errors,
                          aborted := true } rest
                    else
                      seriesLoop f now
                        { db := db1, released := rl,
                          errors := r.errors ++ [(c.id, e.message)],
                          aborted := r.aborted } rest) l2 := by
              intro rl
              by_cases hc : e.code = "ENOSPC"
              · rw [if_pos hc, if_pos hc]; exact ih _
              · rw [if_neg hc, if_neg hc]; exact ih _
            cases rel with
            | some entry => exact key r.released
            | none => exact key r.released
        | none =>
            cases rel with
            | some entry => exact ih _
            | none => exact ih _

/-- The episode loop splits over list concatenation. -/
theorem episodeLoop_append (f : Faults) (l1 l2 : List ComingSoonEpisode) :
    ∀ r : EpisodeRun,
      episodeLoop f r (l1 ++ l2) = episodeLoop f (episodeLoop f r l1) l2 := by
  induction l1 with
  | nil => intro r; rfl
  | cons c rest ih =>
      intro r
      by_cases hab : r.aborted = true
      · rw [episodeLoop_aborted f r _ hab, episodeLoop_aborted f r _ hab,
          episodeLoop_aborted f r _ hab]
      · have hab' : r.aborted = false := by
          revert hab; cases r.aborted <;> simp
        rw [List.cons_append, episodeLoop_cons f r c (rest ++ l2) hab',
          episodeLoop_cons f r c rest hab']
        rcases hps : processDueEpisode f r.db c with ⟨db1, rel, err⟩
        cases err with
        | some e =>
            have key : ∀ rl : List (Nat × Nat × Nat),
                (if e.code = "ENOSPC" then
                    episodeLoop f
                      { db := db1, released := rl, errors := r.errors,
                        aborted := true } (rest ++ l2)
                  else
                    episodeLoop f
                      { db := db1, released := rl,
                        errors := r.errors ++ [(c.id, e.message)],
                        aborted := r.aborted } (rest ++ l2)) =
                  episodeLoop f
                    (if e.code = "ENOSPC" then
                      episodeLoop f
                        { db := db1, released := rl, errors := r.errors,
                          aborted := true } rest
                    else
                      episodeLoop f
                        { db := db1, released := rl,
                          errors := r.errors ++ [(c.id, e.message)],
                          aborted := r.aborted } rest) l2 := by
              intro rl
              by_cases hc : e.code = "ENOSPC"
              · rw [if_pos hc, if_pos hc]; exact ih _
              · rw [if_neg hc, if_neg hc]; exact ih _
            cases rel with
            | some entry => exact key r.released
            | none => exact key r.released
        | none =>
            cases rel with
            | some entry => exact ih _
            | none => exact ih _

/-- An erroring series step comes from the failing `newSeries.save()` and
leaves the store completely untouched: in particular nothing has been
marked `released`. -/
theorem processDueSeries_error (f : Faults) (now : Nat) (db : DB)
    (cs : ComingSoonSeries) (err : JsError)
    (h : (processDueSeries f now db cs).2.2 = some err) :
    (processDueSeries f now db cs).1 = db ∧ f.seriesSave cs.id = some err := by
  rcases hs : db.saveSeries f cs.id cs with e' | ⟨db1, nid⟩
  · have hred : processDueSeries f now db cs = (db, none, some e') := by
      unfold processDueSeries
      rw [hs]
    rw [hred] at h
    have h2 : e' = err := by injection h
    subst h2
    rw [hred]
    exact ⟨rfl, DB.saveSeries_error db f cs.id cs e' hs⟩
  · have hn : (processDueSeries f now db cs).2.2 = none := by
      unfold processDueSeries
      rw [hs]
    rw [hn] at h
    cases h

/-- With no fault injected at its own `save()`, a series step reports a
released entry and no error — whatever happens to its episodes inside the
release-with-parent pass. -/
theorem processDueSeries_ok (f : Faults) (now : Nat) (db : DB)
    (cs : ComingSoonSeries) (h : f.seriesSave cs.id = none) :
    (processDueSeries f now db cs).2.1 = some (db.nextId, cs.title) ∧
    (processDueSeries f now db cs).2.2 = none := by
  have hsave : db.saveSeries f cs.id cs = Except.ok
      (⟨db.comingSoonSeries, db.comingSoonEpisodes,
        db.series ++ [liveSeriesOf cs db.nextId], db.episodes, db.transferLogs,
        db.nextId + 1⟩, db.nextId) := by
    unfold DB.saveSeries
    rw [h]
  unfold processDueSeries
  rw [hsave]
  exact ⟨rfl, rfl⟩

/-- An erroring episode step comes from the failing `newEpisode.save()`;
the store may retain the persisted seriesId resolution, but no record
changes its id or its status — in particular nothing has been marked
`released` and nothing was deleted. -/
theorem processDueEpisode_error (f : Faults) (db : DB) (e : ComingSoonEpisode)
    (err : JsError) (h : (processDueEpisode f db e).2.2 = some err) :
    f.episodeSave e.id = some err ∧
    (processDueEpisode f db e).1.comingSoonEpisodes.map (fun x => (x.id, x.status)) =
      db.comingSoonEpisodes.map (fun x => (x.id, x.status)) ∧
    (processDueEpisode f db e).1.episodes = db.episodes := by
  have key : ∀ (d : DB) (sid : Nat),
      (promoteEpisodeWith f d e sid).2.2 = some err →
      f.episodeSave e.id = some err ∧ (promoteEpisodeWith f d e sid).1 = d := by
    intro d sid hd
    rcases hfind : d.findEpisode sid e.episode with _ | ex
    · rcases hsv : d.saveEpisode f e sid with e' | pr
      · have hred : promoteEpisodeWith f d e sid = (d, none, some e') := by
          unfold promoteEpisodeWith
          rw [hfind, hsv]
        rw [hred] at hd
        have h2 : e' = err := by injection hd
        rw [hred]
        refine ⟨?_, rfl⟩
        rw [← h2]
        exact DB.saveEpisode_error d f e sid e' hsv
      · obtain ⟨db1, nid⟩ := pr
        have hn : (promoteEpisodeWith f d e sid).2.2 = none := by
          unfold promoteEpisodeWith
          rw [hfind, hsv]
        rw [hn] at hd
        cases hd
    · have hn : (promoteEpisodeWith f d e sid).2.2 = none := by
        unfold promoteEpisodeWith
        rw [hfind]
      rw [hn] at hd
      cases hd
  rcases hs : e.seriesId with _ | sid
  · rcases hc : e.comingSoonSeriesId with _ | cid
    · have hn : processDueEpisode f db e = (db, none, none) := by
        unfold processDueEpisode
        rw [hs, hc]
      rw [hn] at h
      cases h
    · rcases ht : db.findTransferLog cid with _ | t
      · have hn : processDueEpisode f db e = (db, none, none) := by
          unfold processDueEpisode
          rw [hs, hc]
          show (match db.findTransferLog cid with
            | some t =>
                promoteEpisodeWith f (db.setCSEpisodeSeriesId e.id t.seriesId) e
                  t.seriesId
            | none => (db, none, none)) = (db, none, none)
          rw [ht]
        rw [hn] at h
        cases h
      · have hred : processDueEpisode f db e =
            promoteEpisodeWith f (db.setCSEpisodeSeriesId e.id t.seriesId) e
              t.seriesId := by
          unfold processDueEpisode
          rw [hs, hc]
          show (match db.findTransferLog cid with
            | some t =>
                promoteEpisodeWith f (db.setCSEpisodeSeriesId e.id t.seriesId) e
                  t.seriesId
            | none => (db, none, none)) = _
          rw [ht]
        rw [hred] at h ⊢
        obtain ⟨k1, k2⟩ := key (db.setCSEpisodeSeriesId e.id t.seriesId) t.seriesId h
        refine ⟨k1, ?_, ?_⟩
        · rw [k2]
          simp only [DB.setCSEpisodeSeriesId]
          exact map_id_of_update (fun x : ComingSoonEpisode => (x.id, x.status))
            (fun x : ComingSoonEpisode =>
              if x.id = e.id then { x with seriesId := some t.seriesId } else x)
            (fun a => by by_cases hq : a.id = e.id <;> simp [hq]) _
        · rw [k2]
          simp
  · have hred : processDueEpisode f db e = promoteEpisodeWith f db e sid := by
      unfold processDueEpisode
      rw [hs]
    rw [hred] at h ⊢
    obtain ⟨k1, k2⟩ := key db sid h
    rw [k2]
    exact ⟨k1, rfl, rfl⟩

/-- In a list of records with pairwise distinct ids, exactly one record
carries the id of a listed member. -/
theorem countP_id_one {l : List ComingSoonSeries}
    (h : (l.map (·.id)).Nodup) {cs : ComingSoonSeries} (hcs : cs ∈ l) :
    l.countP (fun c => decide (c.id = cs.id)) = 1 := by
  induction l with
  | nil => cases hcs
  | cons a t ih =>
      obtain ⟨hna, hnd⟩ :
          (∀ x ∈ t, ¬ x.id = a.id) ∧ (t.map (fun x => x.id)).Nodup := by
        simpa using h
      rcases List.mem_cons.mp hcs with hceq | hmem
      · subst hceq
        have h0 : t.countP (fun c => decide (c.id = cs.id)) = 0 :=
          List.countP_eq_zero.mpr (fun x hx => by
            simp only [decide_eq_true_eq]; exact hna x hx)
        simp [List.countP_cons, h0]
      · have h1 : ¬ a.id = cs.id := fun hEq => hna cs hmem hEq.symm
        have := ih hnd hmem
        simp [List.countP_cons, this, h1]

/-! ## Claim theorems -/

/-- C1: For every PendingSeries record with status pending and
scheduledReleaseAt at or before now, one run of the Series Promoter
(`releaseComingSoonSeries`) creates exactly one corresponding LiveSeries —
the field-for-field copy `liveSeriesOf cs nid` (all fields except
status/scheduledReleaseAt, with viewCount initialized to 0), unique holder
of the fresh id `nid` — deletes the PendingSeries record, and appends
exactly one TransferLog entry (`transferLogOf cs nid now`, which carries
both the pending id `cs.id` and the live id `nid`). -/
theorem spec_c1_series_promotion (now : Nat) (db : DB) (cs : ComingSoonSeries)
    (hwf : db.wf) (hmem : cs ∈ db.comingSoonSeries)
    (hst : cs.status = Status.pending) (hdue : cs.scheduledReleaseDate ≤ now) :
    ∃ nid, db.nextId ≤ nid ∧
      liveSeriesOf cs nid ∈ (releaseComingSoonSeries noFaults now db).db.series ∧
      (releaseComingSoonSeries noFaults now db).db.series.countP
        (fun s => decide (s.id = nid)) = 1 ∧
      ¬ cs.id ∈ (releaseComingSoonSeries noFaults now db).db.comingSoonSeries.map (·.id) ∧
      transferLogOf cs nid now ∈
        (releaseComingSoonSeries noFaults now db).db.transferLogs ∧
      (releaseComingSoonSeries noFaults now db).db.transferLogs.countP
        (fun t => decide (t.comingSoonSeriesId = cs.id)) =
        db.transferLogs.countP (fun t => decide (t.comingSoonSeriesId = cs.id)) + 1 := by
  rw [releaseComingSoonSeries_eq_loop noFaults now db rfl]
  have hdueMem : cs ∈ db.dueSeries now :=
    List.mem_filter.mpr ⟨hmem, by simp [hst, hdue]⟩
  have hdueNd : ((db.dueSeries now).map (·.id)).Nodup :=
    hwf.2.1.sublist ((List.filter_sublist _).map _)
  obtain ⟨nid, h1, h2, h3, h4, -⟩ := seriesLoop_promotes now (db.dueSeries now)
    ⟨db, [], [], false⟩ rfl hwf hdueNd cs hdueMem
  obtain ⟨-, -, -, -, -, -, a7, -, a9⟩ := seriesLoop_noFaults now (db.dueSeries now)
    ⟨db, [], [], false⟩ rfl
  refine ⟨nid, h1, h2, h3, ?_, h4, ?_⟩
  · rw [a7]
    intro hin
    obtain ⟨x, hx, hxid⟩ := List.mem_map.mp hin
    have hx2 := (List.mem_filter.mp hx).2
    simp only [decide_eq_true_eq] at hx2
    exact hx2 (hxid ▸ List.mem_map.mpr ⟨cs, hdueMem, rfl⟩)
  · rw [a9 cs.id, countP_id_one hdueNd hdueMem]

/-- Witness for C1: the spec's first scenario store, evaluated. -/
theorem spec_c1_witness :
    (dbScenario1.wf ∧ sampleSeries 1 50 Status.pending ∈ dbScenario1.comingSoonSeries ∧
      (sampleSeries 1 50 Status.pending).status = Status.pending ∧
      (sampleSeries 1 50 Status.pending).scheduledReleaseDate ≤ 100) ∧
    (∃ nid, dbScenario1.nextId ≤ nid ∧
      liveSeriesOf (sampleSeries 1 50 Status.pending) nid ∈
        (releaseComingSoonSeries noFaults 100 dbScenario1).db.series ∧
      (releaseComingSoonSeries noFaults 100 dbScenario1).db.series.countP
        (fun s => decide (s.id = nid)) = 1 ∧
      ¬ (sampleSeries 1 50 Status.pending).id ∈
        (releaseComingSoonSeries noFaults 100 dbScenario1).db.comingSoonSeries.map (·.id) ∧
      transferLogOf (sampleSeries 1 50 Status.pending) nid 100 ∈
        (releaseComingSoonSeries noFaults 100 dbScenario1).db.transferLogs ∧
      (releaseComingSoonSeries noFaults 100 dbScenario1).db.transferLogs.countP
        (fun t => decide (t.comingSoonSeriesId = (sampleSeries 1 50 Status.pending).id)) =
        dbScenario1.transferLogs.countP
          (fun t => decide (t.comingSoonSeriesId = (sampleSeries 1 50 Status.pending).id)) + 1) :=
  ⟨⟨⟨by unfold DB.fresh dbScenario1; decide, by decide, by decide⟩,
      by decide, by decide, by decide⟩,
    spec_c1_series_promotion 100 dbScenario1 (sampleSeries 1 50 Status.pending)
      ⟨by unfold DB.fresh dbScenario1; decide, by decide, by decide⟩
      (by decide) (by decide) (by decide)⟩

/-- C2: When a PendingSeries is promoted, every PendingEpisode linked to it
(`comingSoonSeriesId = cs.id`; a link by `seriesId` to the not-yet-created
live series is impossible since its id is fresh, and the code's `$or`
branch on the fresh `seriesId` is populated precisely by the relink of
these same records) that still has status pending becomes a LiveEpisode
within the same Series Promoter invocation — no hypothesis constrains the
episode's own `scheduledReleaseDate`. -/
theorem spec_c2_release_with_parent (now : Nat) (db : DB)
    (cs : ComingSoonSeries) (e : ComingSoonEpisode) (hwf : db.wf)
    (hmemS : cs ∈ db.comingSoonSeries) (hstS : cs.status = Status.pending)
    (hdueS : cs.scheduledReleaseDate ≤ now)
    (hmemE : e ∈ db.comingSoonEpisodes)
    (hlink : e.comingSoonSeriesId = some cs.id)
    (hstE : e.status = Status.pending) :
    ∃ nid,
      transferLogOf cs nid now ∈
        (releaseComingSoonSeries noFaults now db).db.transferLogs ∧
      liveSeriesOf cs nid ∈ (releaseComingSoonSeries noFaults now db).db.series ∧
      ¬ e.id ∈ (releaseComingSoonSeries noFaults now db).db.comingSoonEpisodes.map (·.id) ∧
      ∃ lep ∈ (releaseComingSoonSeries noFaults now db).db.episodes,
        lep.seriesId = nid ∧ lep.episode = e.episode := by
  rw [releaseComingSoonSeries_eq_loop noFaults now db rfl]
  have hdueMem : cs ∈ db.dueSeries now :=
    List.mem_filter.mpr ⟨hmemS, by simp [hstS, hdueS]⟩
  have hdueNd : ((db.dueSeries now).map (·.id)).Nodup :=
    hwf.2.1.sublist ((List.filter_sublist _).map _)
  obtain ⟨nid, -, h2, -, h4, h5⟩ := seriesLoop_promotes now (db.dueSeries now)
    ⟨db, [], [], false⟩ rfl hwf hdueNd cs hdueMem
  obtain ⟨hgone, hlep⟩ := h5 e hmemE hlink hstE
  exact ⟨nid, h4, h2, hgone, hlep⟩

/-- Witness for C2: the linked episode is scheduled at 500, far past
`now = 100`, and is released with its series anyway. -/
theorem spec_c2_witness :
    (dbScenario1.wf ∧
      (sampleEpisode 2 none (some 1) 1 500 Status.pending).comingSoonSeriesId =
        some (sampleSeries 1 50 Status.pending).id ∧
      ¬ (sampleEpisode 2 none (some 1) 1 500 Status.pending).scheduledReleaseDate ≤ 100) ∧
    (∃ nid,
      transferLogOf (sampleSeries 1 50 Status.pending) nid 100 ∈
        (releaseComingSoonSeries noFaults 100 dbScenario1).db.transferLogs ∧
      liveSeriesOf (sampleSeries 1 50 Status.pending) nid ∈
        (releaseComingSoonSeries noFaults 100 dbScenario1).db.series ∧
      ¬ (sampleEpisode 2 none (some 1) 1 500 Status.pending).id ∈
        (releaseComingSoonSeries noFaults 100 dbScenario1).db.comingSoonEpisodes.map (·.id) ∧
      ∃ lep ∈ (releaseComingSoonSeries noFaults 100 dbScenario1).db.episodes,
        lep.seriesId = nid ∧
        lep.episode = (sampleEpisode 2 none (some 1) 1 500 Status.pending).episode) :=
  ⟨⟨⟨by unfold DB.fresh dbScenario1; decide, by decide, by decide⟩,
      by decide, by decide⟩,
    spec_c2_release_with_parent 100 dbScenario1 (sampleSeries 1 50 Status.pending)
      (sampleEpisode 2 none (some 1) 1 500 Status.pending)
      ⟨by unfold DB.fresh dbScenario1; decide, by decide, by decide⟩
      (by decide) (by decide) (by decide) (by decide) (by decide) (by decide)⟩

/-- C3: Running the Series Promoter or the Episode Promoter twice in
succession on the same due set, with no time advancing between the runs,
produces no duplicate LiveSeries or LiveEpisode records (the second run
leaves the store exactly as the first left it) and reports no errors (and
releases nothing) on the second run. -/
theorem spec_c3_idempotence (now : Nat) (db : DB) :
    (releaseComingSoonSeries noFaults now
        (releaseComingSoonSeries noFaults now db).db).db =
      (releaseComingSoonSeries noFaults now db).db ∧
    (releaseComingSoonSeries noFaults now
        (releaseComingSoonSeries noFaults now db).db).errors = [] ∧
    (releaseComingSoonSeries noFaults now
        (releaseComingSoonSeries noFaults now db).db).released = [] ∧
    (releaseComingSoonEpisodes noFaults now
        (releaseComingSoonEpisodes noFaults now db).db).db =
      (releaseComingSoonEpisodes noFaults now db).db ∧
    (releaseComingSoonEpisodes noFaults now
        (releaseComingSoonEpisodes noFaults now db).db).errors = [] ∧
    (releaseComingSoonEpisodes noFaults now
        (releaseComingSoonEpisodes noFaults now db).db).released = [] := by
  have hs2 : releaseComingSoonSeries noFaults now
      (releaseComingSoonSeries noFaults now db).db =
      ⟨(releaseComingSoonSeries noFaults now db).db, [], [], false⟩ := by
    obtain ⟨-, -, -, -, -, -, a7, -, -⟩ := seriesLoop_noFaults now (db.dueSeries now)
      ⟨db, [], [], false⟩ rfl
    have hdue2 : (releaseComingSoonSeries noFaults now db).db.dueSeries now = [] := by
      rw [releaseComingSoonSeries_eq_loop noFaults now db rfl]
      show ((seriesLoop noFaults now ⟨db, [], [], false⟩
          (db.dueSeries now)).db.comingSoonSeries.filter
          (fun s => decide (s.status = Status.pending ∧
            s.scheduledReleaseDate ≤ now))) = []
      rw [a7, List.filter_eq_nil_iff]
      intro x hx
      obtain ⟨hx1, hx2⟩ := List.mem_filter.mp hx
      simp only [decide_eq_true_eq] at hx2 ⊢
      intro hP
      refine hx2 (List.mem_map.mpr ⟨x, ?_, rfl⟩)
      exact List.mem_filter.mpr ⟨hx1, by simp [hP.1, hP.2]⟩
    rw [releaseComingSoonSeries_eq_loop noFaults now _ rfl, hdue2]
    rfl
  have he1 : releaseComingSoonEpisodes noFaults now db =
      episodeLoop noFaults ⟨db, [], [], false⟩ (db.dueEpisodes now) :=
    releaseComingSoonEpisodes_eq_loop noFaults now db rfl
  obtain ⟨-, m2, m3, -, -, m6⟩ := episodeLoop_noFaults (db.dueEpisodes now)
    ⟨db, [], [], false⟩ rfl
  have he2 : releaseComingSoonEpisodes noFaults now
      (releaseComingSoonEpisodes noFaults now db).db =
      ⟨(releaseComingSoonEpisodes noFaults now db).db, [], [], false⟩ := by
    rw [releaseComingSoonEpisodes_eq_loop noFaults now _ rfl]
    refine episodeLoop_skip_id _ noFaults _ rfl ?_
    intro e he
    obtain ⟨he1m, he2m⟩ := List.mem_filter.mp he
    rw [he1] at he1m
    rw [m6] at he1m
    obtain ⟨hm1, hm2⟩ := List.mem_filter.mp he1m
    simp only [decide_eq_true_eq] at hm2
    have hlogs : (releaseComingSoonEpisodes noFaults now db).db.transferLogs =
        db.transferLogs := by
      rw [he1]
      exact m3
    rw [hlogs]
    by_contra hres
    have hres' : resolvableB db.transferLogs e = true := by
      revert hres; cases resolvableB db.transferLogs e <;> simp
    refine hm2 (List.mem_map.mpr ⟨e, ?_, rfl⟩)
    refine List.mem_filter.mpr ⟨?_, hres'⟩
    exact List.mem_filter.mpr ⟨hm1, he2m⟩
  rw [hs2, he2]
  exact ⟨rfl, rfl, rfl, rfl, rfl, rfl⟩

/-- One erroring, non-aborted series-loop iteration: ENOSPC breaks with
the partial store, any other error is recorded and the loop continues. -/
theorem seriesLoop_cons_err (f : Faults) (now : Nat) (r : SeriesRun)
    (cs : ComingSoonSeries) (rest : List ComingSoonSeries) (e : JsError)
    (hab : r.aborted = false)
    (herr : (processDueSeries f now r.db cs).2.2 = some e) :
    seriesLoop f now r (cs :: rest) =
      if e.code = "ENOSPC" then
        { r with db := (processDueSeries f now r.db cs).1, aborted := true }
      else
        seriesLoop f now
          { r with
            db := (processDueSeries f now r.db cs).1
            errors := r.errors ++ [(cs.id, e.message)] } rest := by
  have heta : processDueSeries f now r.db cs =
      ((processDueSeries f now r.db cs).1, (processDueSeries f now r.db cs).2.1,
        (processDueSeries f now r.db cs).2.2) := rfl
  rw [herr] at heta
  rw [seriesLoop_cons f now r cs rest hab, heta]
  rcases hrel : (processDueSeries f now r.db cs).2.1 with _ | entry
  · by_cases hc : e.code = "ENOSPC"
    · rw [if_pos hc]
      show (if e.code = "ENOSPC" then
          seriesLoop f now { r with
            db := (processDueSeries f now r.db cs).1
            aborted := true } rest
        else
          seriesLoop f now { r with
            db := (processDueSeries f now r.db cs).1
            errors := r.errors ++ [(cs.id, e.message)] } rest) = _
      rw [if_pos hc, seriesLoop_aborted f now _ rest rfl]
    · rw [if_neg hc]
      show (if e.code = "ENOSPC" then
          seriesLoop f now { r with
            db := (processDueSeries f now r.db cs).1
            aborted := true } rest
        else
          seriesLoop f now { r with
            db := (processDueSeries f now r.db cs).1
            errors := r.errors ++ [(cs.id, e.message)] } rest) = _
      rw [if_neg hc]
  · by_cases hc : e.code = "ENOSPC"
    · rw [if_pos hc]
      show (if e.code = "ENOSPC" then
          seriesLoop f now { r with
            db := (processDueSeries f now r.db cs).1
            aborted := true } rest
        else
          seriesLoop f now { r with
            db := (processDueSeries f now r.db cs).1
            errors := r.errors ++ [(cs.id, e.message)] } rest) = _
      rw [if_pos hc, seriesLoop_aborted f now _ rest rfl]
    · rw [if_neg hc]
      show (if e.code = "ENOSPC" then
          seriesLoop f now { r with
            db := (processDueSeries f now r.db cs).1
            aborted := true } rest
        else
          seriesLoop f now { r with
            db := (processDueSeries f now r.db cs).1
            errors := r.errors ++ [(cs.id, e.message)] } rest) = _
      rw [if_neg hc]

/-- One erroring, non-aborted episode-loop iteration: same shape. -/
theorem episodeLoop_cons_err (f : Faults) (r : EpisodeRun)
    (ep : ComingSoonEpisode) (rest : List ComingSoonEpisode) (e : JsError)
    (hab : r.aborted = false)
    (herr : (processDueEpisode f r.db ep).2.2 = some e) :
    episodeLoop f r (ep :: rest) =
      if e.code = "ENOSPC" then
        { r with db := (processDueEpisode f r.db ep).1, aborted := true }
      else
        episodeLoop f
          { r with
            db := (processDueEpisode f r.db ep).1
            errors := r.errors ++ [(ep.id, e.message)] } rest := by
  have heta : processDueEpisode f r.db ep =
      ((processDueEpisode f r.db ep).1, (processDueEpisode f r.db ep).2.1,
        (processDueEpisode f r.db ep).2.2) := rfl
  rw [herr] at heta
  rw [episodeLoop_cons f r ep rest hab, heta]
  rcases hrel : (processDueEpisode f r.db ep).2.1 with _ | entry
  · by_cases hc : e.code = "ENOSPC"
    · rw [if_pos hc]
      show (if e.code = "ENOSPC" then
          episodeLoop f { r with
            db := (processDueEpisode f r.db ep).1
            aborted := true } rest
        else
          episodeLoop f { r with
            db := (processDueEpisode f r.db ep).1
            errors := r.errors ++ [(ep.id, e.message)] } rest) = _
      rw [if_pos hc, episodeLoop_aborted f _ rest rfl]
    · rw [if_neg hc]
      show (if e.code = "ENOSPC" then
          episodeLoop f { r with
            db := (processDueEpisode f r.db ep).1
            aborted := true } rest
        else
          episodeLoop f { r with
            db := (processDueEpisode f r.db ep).1
            errors := r.errors ++ [(ep.id, e.message)] } rest) = _
      rw [if_neg hc]
  · by_cases hc : e.code = "ENOSPC"
    · rw [if_pos hc]
      show (if e.code = "ENOSPC" then
          episodeLoop f { r with
            db := (processDueEpisode f r.db ep).1
            aborted := true } rest
        else
          episodeLoop f { r with
            db := (processDueEpisode f r.db ep).1
            errors := r.errors ++ [(ep.id, e.message)] } rest) = _
      rw [if_pos hc, episodeLoop_aborted f _ rest rfl]
    · rw [if_neg hc]
      show (if e.code = "ENOSPC" then
          episodeLoop f { r with
            db := (processDueEpisode f r.db ep).1
            aborted := true } rest
        else
          episodeLoop f { r with
            db := (processDueEpisode f r.db ep).1
            errors := r.errors ++ [(ep.id, e.message)] } rest) = _
      rw [if_neg hc]

/-- C4: During a promoter run (the initial `find` not failing, so the loop
was entered), a storage-exhaustion (`ENOSPC`) error on one due item aborts
the whole batch immediately: the run returns with the state left by the
failing item and the due items after it are never processed.  The failing
series step leaves the store untouched (nothing marked released); the
failing episode step changes no record id, status or live episode (so
nothing is marked released there either); items promoted by the earlier
loop iterations stay promoted, being part of the returned state.  Any
other error class is recorded as the per-item failure `(id, message)` and
the loop continues with the remaining due items. -/
theorem spec_c4_enospc_abort :
    (∀ (f : Faults) (now : Nat) (db : DB) (pre rest : List ComingSoonSeries)
        (cs : ComingSoonSeries) (e : JsError),
      f.seriesFind = none →
      db.dueSeries now = pre ++ cs :: rest →
      (seriesLoop f now ⟨db, [], [], false⟩ pre).aborted = false →
      (processDueSeries f now
        (seriesLoop f now ⟨db, [], [], false⟩ pre).db cs).2.2 = some e →
      (processDueSeries f now
        (seriesLoop f now ⟨db, [], [], false⟩ pre).db cs).1 =
        (seriesLoop f now ⟨db, [], [], false⟩ pre).db ∧
      (e.code = "ENOSPC" →
        releaseComingSoonSeries f now db =
          { seriesLoop f now ⟨db, [], [], false⟩ pre with aborted := true }) ∧
      (¬ e.code = "ENOSPC" →
        releaseComingSoonSeries f now db =
          seriesLoop f now
            { seriesLoop f now ⟨db, [], [], false⟩ pre with
              errors := (seriesLoop f now ⟨db, [], [], false⟩ pre).errors ++
                [(cs.id, e.message)] } rest)) ∧
    (∀ (f : Faults) (now : Nat) (db : DB) (pre rest : List ComingSoonEpisode)
        (ep : ComingSoonEpisode) (e : JsError),
      f.episodeFind = none →
      db.dueEpisodes now = pre ++ ep :: rest →
      (episodeLoop f ⟨db, [], [], false⟩ pre).aborted = false →
      (processDueEpisode f (episodeLoop f ⟨db, [], [], false⟩ pre).db ep).2.2 =
        some e →
      (processDueEpisode f (episodeLoop f ⟨db, [], [], false⟩ pre).db
          ep).1.comingSoonEpisodes.map (fun x => (x.id, x.status)) =
        (episodeLoop f ⟨db, [], [], false⟩
          pre).db.comingSoonEpisodes.map (fun x => (x.id, x.status)) ∧
      (processDueEpisode f (episodeLoop f ⟨db, [], [], false⟩ pre).db ep).1.episodes =
        (episodeLoop f ⟨db, [], [], false⟩ pre).db.episodes ∧
      (e.code = "ENOSPC" →
        releaseComingSoonEpisodes f now db =
          { episodeLoop f ⟨db, [], [], false⟩ pre with
            db := (processDueEpisode f
              (episodeLoop f ⟨db, [], [], false⟩ pre).db ep).1
            aborted := true }) ∧
      (¬ e.code = "ENOSPC" →
        releaseComingSoonEpisodes f now db =
          episodeLoop f
            { episodeLoop f ⟨db, [], [], false⟩ pre with
              db := (processDueEpisode f
                (episodeLoop f ⟨db, [], [], false⟩ pre).db ep).1
              errors := (episodeLoop f ⟨db, [], [], false⟩ pre).errors ++
                [(ep.id, e.message)] } rest)) := by
  constructor
  · intro f now db pre rest cs e hfind hdue hab herr
    have huntouched := (processDueSeries_error f now
      (seriesLoop f now ⟨db, [], [], false⟩ pre).db cs e herr).1
    refine ⟨huntouched, ?_, ?_⟩
    · intro hcode
      rw [releaseComingSoonSeries_eq_loop f now db hfind, hdue,
        seriesLoop_append f now pre (cs :: rest) ⟨db, [], [], false⟩,
        seriesLoop_cons_err f now _ cs rest e hab herr, if_pos hcode, huntouched]
    · intro hcode
      rw [releaseComingSoonSeries_eq_loop f now db hfind, hdue,
        seriesLoop_append f now pre (cs :: rest) ⟨db, [], [], false⟩,
        seriesLoop_cons_err f now _ cs rest e hab herr, if_neg hcode, huntouched]
  · intro f now db pre rest ep e hfind hdue hab herr
    obtain ⟨-, hst, hep⟩ := processDueEpisode_error f
      (episodeLoop f ⟨db, [], [], false⟩ pre).db ep e herr
    refine ⟨hst, hep, ?_, ?_⟩
    · intro hcode
      rw [releaseComingSoonEpisodes_eq_loop f now db hfind, hdue,
        episodeLoop_append f pre (ep :: rest) ⟨db, [], [], false⟩,
        episodeLoop_cons_err f _ ep rest e hab herr, if_pos hcode]
    · intro hcode
      rw [releaseComingSoonEpisodes_eq_loop f now db hfind, hdue,
        episodeLoop_append f pre (ep :: rest) ⟨db, [], [], false⟩,
        episodeLoop_cons_err f _ ep rest e hab herr, if_neg hcode]

/-- Witness for C4: the spec's scenario — ENOSPC on the 2nd of 5 due
series aborts series 3–5 for the tick, series 1 stays promoted and series
2–5 stay pending; with a non-ENOSPC error class instead, the failure is
recorded per-item and series 1, 3, 4, 5 are all promoted. -/
theorem spec_c4_witness :
    (faultsEnospcOn2.seriesFind = none ∧
      dbFiveSeries.dueSeries 100 =
        [sampleSeries 1 10 Status.pending] ++
          sampleSeries 2 20 Status.pending ::
            [sampleSeries 3 30 Status.pending, sampleSeries 4 40 Status.pending,
              sampleSeries 5 50 Status.pending]) ∧
    releaseComingSoonSeries faultsEnospcOn2 100 dbFiveSeries =
      { seriesLoop faultsEnospcOn2 100 ⟨dbFiveSeries, [], [], false⟩
          [sampleSeries 1 10 Status.pending] with aborted := true } ∧
    ((releaseComingSoonSeries faultsEnospcOn2 100 dbFiveSeries).db.series.map
        (fun s => s.id) = [10] ∧
      (releaseComingSoonSeries faultsEnospcOn2 100 dbFiveSeries).db.comingSoonSeries.map
        (fun s => (s.id, s.status)) =
        [(2, Status.pending), (3, Status.pending), (4, Status.pending),
          (5, Status.pending)] ∧
      (releaseComingSoonSeries faultsEnospcOn2 100 dbFiveSeries).errors = []) ∧
    ((releaseComingSoonSeries faultsValidationOn2 100 dbFiveSeries).errors =
        [(2, "validation failed")] ∧
      (releaseComingSoonSeries faultsValidationOn2 100 dbFiveSeries).db.comingSoonSeries.map
        (fun s => (s.id, s.status)) = [(2, Status.pending)] ∧
      (releaseComingSoonSeries faultsValidationOn2 100 dbFiveSeries).db.series.map
        (fun s => s.id) = [10, 11, 12, 13]) := by
  have h1 := spec_c4_enospc_abort.1 faultsEnospcOn2 100 dbFiveSeries
    [sampleSeries 1 10 Status.pending]
    [sampleSeries 3 30 Status.pending, sampleSeries 4 40 Status.pending,
      sampleSeries 5 50 Status.pending]
    (sampleSeries 2 20 Status.pending) ⟨"ENOSPC", "no space left on device"⟩
    rfl (by decide) (by decide) (by decide)
  have h2 := spec_c4_enospc_abort.1 faultsValidationOn2 100 dbFiveSeries
    [sampleSeries 1 10 Status.pending]
    [sampleSeries 3 30 Status.pending, sampleSeries 4 40 Status.pending,
      sampleSeries 5 50 Status.pending]
    (sampleSeries 2 20 Status.pending) ⟨"EVAL", "validation failed"⟩
    rfl (by decide) (by decide) (by decide)
  have h2cont := h2.2.2 (by decide)
  refine ⟨⟨rfl, by decide⟩, h1.2.1 rfl, ⟨?_, ?_, ?_⟩, ⟨?_, ?_, ?_⟩⟩
  · rw [h1.2.1 rfl]; decide
  · rw [h1.2.1 rfl]; decide
  · rw [h1.2.1 rfl]; decide
  · rw [h2cont]; decide
  · rw [h2cont]; decide
  · rw [h2cont]; decide

/-- C5: For a due PendingEpisode whose `seriesId` is absent, the Episode
Promoter looks up the TransferLog by `comingSoonSeriesId`.  If an entry
exists, it persists the resolved `seriesId` back to the pending record
immediately and continues to promotion (fault-free: the record is released
— deleted, with a live episode under the resolved series id, no error).
If no entry exists, the step leaves the store entirely untouched — no
error, nothing released — and over a whole fault-free run such an episode
survives with its record intact, the run reporting no errors, so it is
retried on a later tick. -/
theorem spec_c5_resolution :
    (∀ (db : DB) (e : ComingSoonEpisode) (cid : Nat) (t : SeriesTransferLog),
      e.seriesId = none → e.comingSoonSeriesId = some cid →
      db.findTransferLog cid = some t →
        processDueEpisode noFaults db e =
          promoteEpisodeWith noFaults (db.setCSEpisodeSeriesId e.id t.seriesId) e
            t.seriesId ∧
        ¬ e.id ∈ (processDueEpisode noFaults db e).1.comingSoonEpisodes.map (·.id) ∧
        (∃ lep ∈ (processDueEpisode noFaults db e).1.episodes,
          lep.seriesId = t.seriesId ∧ lep.episode = e.episode) ∧
        (processDueEpisode noFaults db e).2.2 = none) ∧
    (∀ (f : Faults) (db : DB) (e : ComingSoonEpisode) (cid : Nat),
      e.seriesId = none → e.comingSoonSeriesId = some cid →
      db.findTransferLog cid = none →
        processDueEpisode f db e = (db, none, none)) ∧
    (∀ (now : Nat) (db : DB) (e : ComingSoonEpisode) (cid : Nat),
      db.wf → e ∈ db.comingSoonEpisodes → e.status = Status.pending →
      e.scheduledReleaseDate ≤ now → e.seriesId = none →
      e.comingSoonSeriesId = some cid → db.findTransferLog cid = none →
        e ∈ (releaseComingSoonEpisodes noFaults now db).db.comingSoonEpisodes ∧
        (releaseComingSoonEpisodes noFaults now db).errors = []) := by
  refine ⟨?_, ?_, ?_⟩
  · intro db e cid t hs hc ht
    have hred : processDueEpisode noFaults db e =
        promoteEpisodeWith noFaults (db.setCSEpisodeSeriesId e.id t.seriesId) e
          t.seriesId := by
      unfold processDueEpisode
      rw [hs, hc]
      show (match db.findTransferLog cid with
        | some t =>
            promoteEpisodeWith noFaults (db.setCSEpisodeSeriesId e.id t.seriesId) e
              t.seriesId
        | none => (db, none, none)) = _
      rw [ht]
    obtain ⟨p1, p2, p3⟩ := promoteEpisodeWith_noFaults
      (db.setCSEpisodeSeriesId e.id t.seriesId) e t.seriesId
    refine ⟨hred, ?_, ?_, ?_⟩
    · rw [hred, p2]
      intro hin
      obtain ⟨x, hx, hxid⟩ := List.mem_map.mp hin
      have hx2 := (List.mem_filter.mp hx).2
      simp only [decide_eq_true_eq] at hx2
      exact hx2 hxid
    · rw [hred]
      exact p3
    · rw [hred]
      exact p1
  · intro f db e cid hs hc ht
    refine processDueEpisode_skip f db e ?_
    unfold resolvableB
    rw [hs]
    show (match e.comingSoonSeriesId with
      | some cid =>
          (db.transferLogs.find? fun t => decide (t.comingSoonSeriesId = cid)).isSome
      | none => false) = false
    rw [hc]
    show (db.transferLogs.find? fun t => decide (t.comingSoonSeriesId = cid)).isSome = false
    rw [DB.findTransferLog] at ht
    rw [ht]
    rfl
  · intro now db e cid hwf hmem hst hdue hs hc ht
    rw [releaseComingSoonEpisodes_eq_loop noFaults now db rfl]
    obtain ⟨-, m2, -, -, -, m6⟩ := episodeLoop_noFaults (db.dueEpisodes now)
      ⟨db, [], [], false⟩ rfl
    have hres : resolvableB db.transferLogs e = false := by
      unfold resolvableB
      rw [hs]
      show (match e.comingSoonSeriesId with
        | some cid =>
            (db.transferLogs.find? fun t => decide (t.comingSoonSeriesId = cid)).isSome
        | none => false) = false
      rw [hc]
      show (db.transferLogs.find? fun t => decide (t.comingSoonSeriesId = cid)).isSome = false
      rw [DB.findTransferLog] at ht
      rw [ht]
      rfl
    constructor
    · rw [m6]
      refine List.mem_filter.mpr ⟨hmem, ?_⟩
      simp only [decide_eq_true_eq]
      intro hin
      obtain ⟨x, hx, hxid⟩ := List.mem_map.mp hin
      obtain ⟨hx1, hx2⟩ := List.mem_filter.mp hx
      have hx1' : x ∈ db.comingSoonEpisodes := (List.mem_filter.mp hx1).1
      have hxe : x = e := List.inj_on_of_nodup_map hwf.2.2 hx1' hmem hxid
      subst hxe
      have hx2' : resolvableB db.transferLogs x = true := hx2
      rw [hres] at hx2'
      cases hx2'
    · exact m2

/-- Witness for C5: the same unlinked episode against a store where the
parent's transfer log exists (resolved and released: record gone, live
episode under series 7) and one where it does not (left verbatim). -/
theorem spec_c5_witness :
    ((sampleEpisode 4 none (some 1) 2 60 Status.pending).seriesId = none ∧
      dbResolvable.findTransferLog 1 = some ⟨1, 7, "s", 50, 90⟩ ∧
      dbUnresolvable.findTransferLog 3 = none) ∧
    (¬ (sampleEpisode 4 none (some 1) 2 60 Status.pending).id ∈
        (processDueEpisode noFaults dbResolvable
          (sampleEpisode 4 none (some 1) 2 60 Status.pending)).1.comingSoonEpisodes.map
          (·.id) ∧
      (∃ lep ∈ (processDueEpisode noFaults dbResolvable
          (sampleEpisode 4 none (some 1) 2 60 Status.pending)).1.episodes,
        lep.seriesId = 7 ∧
        lep.episode = (sampleEpisode 4 none (some 1) 2 60 Status.pending).episode)) ∧
    processDueEpisode noFaults dbUnresolvable
        (sampleEpisode 4 none (some 3) 2 60 Status.pending) =
      (dbUnresolvable, none, none) ∧
    (sampleEpisode 4 none (some 3) 2 60 Status.pending ∈
        (releaseComingSoonEpisodes noFaults 100 dbUnresolvable).db.comingSoonEpisodes ∧
      (releaseComingSoonEpisodes noFaults 100 dbUnresolvable).errors = []) := by
  have h1 := spec_c5_resolution.1 dbResolvable
    (sampleEpisode 4 none (some 1) 2 60 Status.pending) 1 ⟨1, 7, "s", 50, 90⟩
    (by decide) (by decide) (by decide)
  have h2 := spec_c5_resolution.2.1 noFaults dbUnresolvable
    (sampleEpisode 4 none (some 3) 2 60 Status.pending) 3
    (by decide) (by decide) (by decide)
  have h3 := spec_c5_resolution.2.2 100 dbUnresolvable
    (sampleEpisode 4 none (some 3) 2 60 Status.pending) 3
    ⟨⟨by decide, by decide, by decide, by decide⟩, by decide, by decide⟩
    (by decide) (by decide) (by decide) (by decide) (by decide) (by decide)
  exact ⟨⟨by decide, by decide, by decide⟩, ⟨h1.2.1, h1.2.2.1⟩, h2, h3⟩

/-- C6: When promoting a PendingEpisode for which a LiveEpisode with the
same `(seriesId, episode)` key already exists, the promoter does not
create a second LiveEpisode: the live collection is unchanged, the pending
record is marked released and deleted, and no error is reported — in both
the Episode Promoter step and the Series Promoter's release-with-parent
pass, whatever the fault oracle. -/
theorem spec_c6_duplicate_episode :
    (∀ (f : Faults) (db : DB) (e : ComingSoonEpisode) (sid : Nat) (ex : Episode),
      e.seriesId = some sid → db.findEpisode sid e.episode = some ex →
        processDueEpisode f db e =
          ((db.markCSEpisodeReleased e.id).deleteCSEpisode e.id, none, none) ∧
        (processDueEpisode f db e).1.episodes = db.episodes ∧
        ¬ e.id ∈ (processDueEpisode f db e).1.comingSoonEpisodes.map (·.id)) ∧
    (∀ (f : Faults) (db : DB) (nid : Nat) (e : ComingSoonEpisode) (ex : Episode),
      db.findEpisode nid e.episode = some ex →
        seriesInnerEpisode f db nid e =
          (db.markCSEpisodeReleased e.id).deleteCSEpisode e.id ∧
        (seriesInnerEpisode f db nid e).episodes = db.episodes ∧
        ¬ e.id ∈ (seriesInnerEpisode f db nid e).comingSoonEpisodes.map (·.id)) := by
  constructor
  · intro f db e sid ex hs hfind
    have hred : processDueEpisode f db e =
        ((db.markCSEpisodeReleased e.id).deleteCSEpisode e.id, none, none) := by
      unfold processDueEpisode
      rw [hs]
      show promoteEpisodeWith f db e sid = _
      unfold promoteEpisodeWith
      rw [hfind]
    refine ⟨hred, ?_, ?_⟩
    · rw [hred]
      simp
    · rw [hred]
      show ¬ e.id ∈ ((db.markCSEpisodeReleased e.id).deleteCSEpisode
        e.id).comingSoonEpisodes.map (·.id)
      rw [DB.markDelete_comingSoonEpisodes]
      intro hin
      obtain ⟨x, hx, hxid⟩ := List.mem_map.mp hin
      have hx2 := (List.mem_filter.mp hx).2
      simp only [decide_eq_true_eq] at hx2
      exact hx2 hxid
  · intro f db nid e ex hfind
    have hred := seriesInnerEpisode_duplicate f db nid e ex hfind
    refine ⟨hred, ?_, ?_⟩
    · rw [hred]
      simp
    · rw [hred]
      rw [DB.markDelete_comingSoonEpisodes]
      intro hin
      obtain ⟨x, hx, hxid⟩ := List.mem_map.mp hin
      have hx2 := (List.mem_filter.mp hx).2
      simp only [decide_eq_true_eq] at hx2
      exact hx2 hxid

/-- Witness for C6: the spec's duplicate scenario — a live episode
`(seriesId 7, episode 1)` already exists; promoting the pending episode
for the same key deletes the pending record, adds nothing, errs nothing. -/
theorem spec_c6_witness :
    (dbDuplicate.findEpisode 7 1 = some ⟨8, 7, 1, "", 0, 0, 0, "v0", none⟩) ∧
    processDueEpisode noFaults dbDuplicate
        (sampleEpisode 4 (some 7) none 1 60 Status.pending) =
      ((dbDuplicate.markCSEpisodeReleased 4).deleteCSEpisode 4, none, none) ∧
    (processDueEpisode noFaults dbDuplicate
        (sampleEpisode 4 (some 7) none 1 60 Status.pending)).1.episodes =
      dbDuplicate.episodes ∧
    ¬ (4 : Nat) ∈ (processDueEpisode noFaults dbDuplicate
        (sampleEpisode 4 (some 7) none 1 60 Status.pending)).1.comingSoonEpisodes.map
        (·.id) := by
  have h := spec_c6_duplicate_episode.1 noFaults dbDuplicate
    (sampleEpisode 4 (some 7) none 1 60 Status.pending) 7
    ⟨8, 7, 1, "", 0, 0, 0, "v0", none⟩ (by decide) (by decide)
  exact ⟨by decide, h.1, h.2.1, h.2.2⟩

/-- Counterexample for C8.  The claim asserts that a `status = released`
PendingSeries is excluded from re-promotion "by a defensive in-loop
re-check skipping already-released records, not by the query filter
alone".  No such in-loop guard exists: handed a released record directly,
the loop body `processDueSeries` promotes it — it reports a released
entry, creates the live copy and appends a transfer-log entry.  Exclusion
therefore rests on the query filter alone. -/
theorem spec_c8_counterexample :
    (sampleSeries 1 50 Status.released).status = Status.released ∧
    (processDueSeries noFaults 100 dbStuckReleased
      (sampleSeries 1 50 Status.released)).2.1 = some (10, "s") ∧
    liveSeriesOf (sampleSeries 1 50 Status.released) 10 ∈
      (processDueSeries noFaults 100 dbStuckReleased
        (sampleSeries 1 50 Status.released)).1.series ∧
    transferLogOf (sampleSeries 1 50 Status.released) 10 100 ∈
      (processDueSeries noFaults 100 dbStuckReleased
        (sampleSeries 1 50 Status.released)).1.transferLogs := by
  refine ⟨by decide, by decide, by decide, by decide⟩

/-- C8 as amended: a PendingSeries record at status released is never
promoted again by a Series Promoter run — but solely because the scan's
query filter selects `status = pending` records; the loop body itself
contains no defensive status re-check (see the counterexample).  Under the
filter, the released record survives the run untouched and no transfer-log
entry referencing its id is appended. -/
theorem spec_c8_amended (now : Nat) (db : DB) (cs : ComingSoonSeries)
    (hnd : (db.comingSoonSeries.map (·.id)).Nodup)
    (hmem : cs ∈ db.comingSoonSeries) (hst : cs.status = Status.released) :
    cs ∈ (releaseComingSoonSeries noFaults now db).db.comingSoonSeries ∧
    (releaseComingSoonSeries noFaults now db).db.transferLogs.countP
      (fun t => decide (t.comingSoonSeriesId = cs.id)) =
      db.transferLogs.countP (fun t => decide (t.comingSoonSeriesId = cs.id)) := by
  rw [releaseComingSoonSeries_eq_loop noFaults now db rfl]
  obtain ⟨-, -, -, -, -, -, a7, -, a9⟩ := seriesLoop_noFaults now (db.dueSeries now)
    ⟨db, [], [], false⟩ rfl
  have hnotdue : ∀ x ∈ db.dueSeries now, ¬ x.id = cs.id := by
    intro x hx hxid
    obtain ⟨hx1, hx2⟩ := List.mem_filter.mp hx
    have hxe : x = cs := List.inj_on_of_nodup_map hnd hx1 hmem hxid
    subst hxe
    simp only [decide_eq_true_eq] at hx2
    rw [hst] at hx2
    cases hx2.1
  constructor
  · rw [a7]
    refine List.mem_filter.mpr ⟨hmem, ?_⟩
    simp only [decide_eq_true_eq]
    intro hin
    obtain ⟨x, hx, hxid⟩ := List.mem_map.mp hin
    exact hnotdue x hx hxid
  · rw [a9 cs.id]
    have h0 : (db.dueSeries now).countP (fun c => decide (c.id = cs.id)) = 0 :=
      List.countP_eq_zero.mpr (fun x hx => by
        simp only [decide_eq_true_eq]; exact hnotdue x hx)
    rw [h0]
    exact Nat.add_zero _

/-- Witness for C8 (amended): the stuck-released store, evaluated. -/
theorem spec_c8_witness :
    ((dbStuckReleased.comingSoonSeries.map (·.id)).Nodup ∧
      sampleSeries 1 50 Status.released ∈ dbStuckReleased.comingSoonSeries ∧
      (sampleSeries 1 50 Status.released).status = Status.released) ∧
    (sampleSeries 1 50 Status.released ∈
        (releaseComingSoonSeries noFaults 100 dbStuckReleased).db.comingSoonSeries ∧
      (releaseComingSoonSeries noFaults 100 dbStuckReleased).db.transferLogs.countP
        (fun t => decide (t.comingSoonSeriesId =
          (sampleSeries 1 50 Status.released).id)) =
        dbStuckReleased.transferLogs.countP
          (fun t => decide (t.comingSoonSeriesId =
            (sampleSeries 1 50 Status.released).id))) :=
  ⟨⟨by decide, by decide, by decide⟩,
    spec_c8_amended 100 dbStuckReleased (sampleSeries 1 50 Status.released)
      (by decide) (by decide) (by decide)⟩

/-- C9: For every input state and every injected store fault, the two
promoter bodies never let an exception escape the per-item handlers: the
body inside the outer tick-level `try` (`releaseComingSoon*Try`) can only
end in `.error` when the initial `find` itself throws — exactly the case
the outer `catch` (see the definitions of `releaseComingSoonSeries` and
`releaseComingSoonEpisodes`, which return normally on it) is there for.
Hence no error from this subsystem propagates to the caller. -/
theorem spec_c9_no_propagation (f : Faults) (now : Nat) (db : DB) :
    (releaseComingSoonSeriesTry f now db).isOk = f.seriesFind.isNone ∧
    (releaseComingSoonEpisodesTry f now db).isOk = f.episodeFind.isNone := by
  constructor
  · unfold releaseComingSoonSeriesTry
    cases hf : f.seriesFind <;> rfl
  · unfold releaseComingSoonEpisodesTry
    cases hf : f.episodeFind <;> rfl

/-- C10: Inside the Series Promoter's release-with-parent pass, any error
on an individual episode — including a storage-exhaustion error — is
caught by the per-episode handler, which only logs: the store is left as
it was for that episode, the remaining episodes of the series are still
processed (the fold simply moves on), and the outer series item still
reports success, so nothing lands in the promoter's failure list and the
outer batch is not aborted. -/
theorem spec_c10_inner_swallow :
    (∀ (f : Faults) (db : DB) (nid : Nat) (e : ComingSoonEpisode) (err : JsError),
      f.episodeSave e.id = some err → db.findEpisode nid e.episode = none →
        seriesInnerEpisode f db nid e = db) ∧
    (∀ (f : Faults) (db : DB) (nid : Nat) (e : ComingSoonEpisode) (err : JsError)
        (rest : List ComingSoonEpisode),
      f.episodeSave e.id = some err → db.findEpisode nid e.episode = none →
        (e :: rest).foldl (fun d x => seriesInnerEpisode f d nid x) db =
          rest.foldl (fun d x => seriesInnerEpisode f d nid x) db) ∧
    (∀ (f : Faults) (now : Nat) (db : DB) (cs : ComingSoonSeries),
      f.seriesSave cs.id = none →
        (processDueSeries f now db cs).2.1 = some (db.nextId, cs.title) ∧
        (processDueSeries f now db cs).2.2 = none) := by
  refine ⟨?_, ?_, ?_⟩
  · intro f db nid e err hf hfind
    exact seriesInnerEpisode_swallow f db nid e err hfind hf
  · intro f db nid e err rest hf hfind
    rw [List.foldl_cons, seriesInnerEpisode_swallow f db nid e err hfind hf]
  · intro f now db cs hf
    exact processDueSeries_ok f now db cs hf

/-- Witness for C10: an ENOSPC fault on the first linked episode's own
`save()` inside the release-with-parent pass: that episode's step is a
no-op, the second episode is still released, and the series item reports
success with an empty failure list for the whole run. -/
theorem spec_c10_witness :
    (faultsEpisodeEnospcOn2.episodeSave 2 =
        some ⟨"ENOSPC", "no space left on device"⟩ ∧
      faultsEpisodeEnospcOn2.seriesSave 1 = none) ∧
    (processDueSeries faultsEpisodeEnospcOn2 100 dbInnerFault
        (sampleSeries 1 50 Status.pending)).2.1 = some (10, "s") ∧
    (processDueSeries faultsEpisodeEnospcOn2 100 dbInnerFault
        (sampleSeries 1 50 Status.pending)).2.2 = none ∧
    ((releaseComingSoonSeries faultsEpisodeEnospcOn2 100 dbInnerFault).errors = [] ∧
      (releaseComingSoonSeries faultsEpisodeEnospcOn2 100
        dbInnerFault).db.episodes.map (fun p => (p.seriesId, p.episode)) = [(10, 2)] ∧
      (releaseComingSoonSeries faultsEpisodeEnospcOn2 100
        dbInnerFault).db.comingSoonEpisodes.map (fun x => (x.id, x.status)) =
        [(2, Status.pending)]) := by
  have h := spec_c10_inner_swallow.2.2 faultsEpisodeEnospcOn2 100 dbInnerFault
    (sampleSeries 1 50 Status.pending) (by decide)
  exact ⟨⟨by decide, by decide⟩, h.1, h.2, by decide, by decide, by decide⟩

end DramaShort
